import Mathlib

/-!
Verification of the VHDX reader core (vhdx-rs).

This file is a shallow embedding, in Lean 4, of the decoding and
log-sequence machinery of the vhdx-rs crate, together with theorems that
settle the frozen claims about it.

Conventions of the embedding:
  * machine integers (u16/u32/u64/usize) are `Nat`; every arithmetic
    operation of the source that can wrap or panic is either modelled
    explicitly or noted at its definition;
  * byte buffers are `List Nat` (each element a byte value, < 256 for all
    byte lists the embedding constructs);
  * `Uuid` values are `Nat`: the 128-bit little-endian interpretation of
    the 16 on-disk bytes.  `uuid::Builder::from_slice_le` followed by
    `Uuid::to_bytes_le` is the identity on the 16 bytes, so equality of
    these `Nat`s coincides with equality of the Rust `Uuid` values;
  * fallible Rust code returning `Result<T, VhdxError>` becomes
    `Except VhdxError T`; code that can additionally panic
    (`unwrap` / `todo!()` / `panic!`) is wrapped in `Option`, with `none`
    standing for the panic.
-/

set_option maxRecDepth 100000

deriving instance DecidableEq for Except

/-! ## Byte-level primitives (src/parse_utils.rs and the nom combinators) -/

/-- Byte buffers: each element is one byte of the input. -/
abbrev Bytes := List Nat

/-- Little-endian interpretation of a byte list (`le_u16`/`le_u32`/`le_u64`
of nom, and `Builder::from_slice_le` for 16-byte GUIDs). -/
def leNat (bs : Bytes) : Nat :=
  bs.foldr (fun b acc => b + 256 * acc) 0

/-- `w`-byte little-endian encoding of `v` (`to_le_bytes` in the source). -/
def leBytes (w : Nat) (v : Nat) : Bytes :=
  match w with
  | 0 => []
  | w + 1 => (v % 256) :: leBytes w (v / 256)

/-- Read `n` bytes at position `pos`; `none` models a failed
`read_exact` (reaching past the end of the input). -/
def readSlice (b : Bytes) (pos n : Nat) : Option Bytes :=
  if pos + n ≤ b.length then some ((b.drop pos).take n) else none

/-- The signature enumeration of src/lib.rs. -/
inductive Signature where
  | Vhdxfile
  | Head
  | Regi
  | Loge
  | Zero
  | Data
  | Desc
  | MetaData
  | Unknown
deriving DecidableEq

/-- `FileTypeIdentifier::SIGN`: the ASCII bytes of "vhdxfile". -/
def ftiSignBytes : Bytes := [0x76, 0x68, 0x64, 0x78, 0x66, 0x69, 0x6C, 0x65]

/-- `META_DATA_SIGN`: the ASCII bytes of "metadata". -/
def metaDataSignBytes : Bytes := [0x6D, 0x65, 0x74, 0x61, 0x64, 0x61, 0x74, 0x61]

/-- `Header::SIGN`: the ASCII bytes of "head". -/
def headSignBytes : Bytes := [0x68, 0x65, 0x61, 0x64]

/-- `RegionTable::SIGN`: the ASCII bytes of "regi". -/
def regiSignBytes : Bytes := [0x72, 0x65, 0x67, 0x69]

/-- `Descriptor::SIGN`: the ASCII bytes of "desc". -/
def descSignBytes : Bytes := [0x64, 0x65, 0x73, 0x63]

/-- `ZeroDesc::SIGN`, transcribed exactly: the source writes the byte
array [0x6F, 0x72, 0x65, 0x7A] ("orez", the reverse of the on-disk
"zero" signature bytes). -/
def zeroSignBytes : Bytes := [0x6F, 0x72, 0x65, 0x7A]

/-- `DataDesc::SIGN`: the ASCII bytes of "data". -/
def dataSignBytes : Bytes := [0x64, 0x61, 0x74, 0x61]

/-- `LogHeader::SIGN`: the ASCII bytes of "loge". -/
def logeSignBytes : Bytes := [0x6C, 0x6F, 0x67, 0x65]

/-- `t_sign_u32` of src/parse_utils.rs: classify 4 signature bytes. -/
def t_sign_u32 (bs : Bytes) : Signature :=
  if bs = headSignBytes then Signature.Head
  else if bs = regiSignBytes then Signature.Regi
  else if bs = descSignBytes then Signature.Desc
  else if bs = zeroSignBytes then Signature.Zero
  else if bs = dataSignBytes then Signature.Data
  else if bs = logeSignBytes then Signature.Loge
  else Signature.Unknown

/-- `t_sign_u64` of src/parse_utils.rs: classify 8 signature bytes. -/
def t_sign_u64 (bs : Bytes) : Signature :=
  if bs = ftiSignBytes then Signature.Vhdxfile
  else if bs = metaDataSignBytes then Signature.MetaData
  else Signature.Unknown

/-! ## CRC-32C (the `crc` crate's `CRC_32_ISCSI` algorithm, src Crc32 impls)

`CRC_32_ISCSI`: polynomial 0x1EDC6F41 (reflected 0x82F63B78), initial value
0xFFFFFFFF, input and output reflected, final XOR 0xFFFFFFFF. -/

/-- One bit step of the reflected CRC-32C computation. -/
def crcStep (s : Nat) : Nat :=
  if s % 2 = 1 then (s / 2) ^^^ 0x82F63B78 else s / 2

/-- Feed one byte into the CRC state. -/
def crcByte (s b : Nat) : Nat :=
  crcStep (crcStep (crcStep (crcStep (crcStep (crcStep (crcStep (crcStep
    (s ^^^ (b % 256)))))))))

/-- `Digest::update`: feed a byte run into the CRC state. -/
def crcUpdate (s : Nat) (bs : Bytes) : Nat :=
  bs.foldl crcByte s

/-- CRC-32C of a byte list: `Crc::<u32>::new(&CRC_32_ISCSI)` digest over the
bytes, finalized. -/
def crc32c (bs : Bytes) : Nat :=
  crcUpdate 0xFFFFFFFF bs ^^^ 0xFFFFFFFF

/-! ## SectorSize (src/meta_data.rs) -/

/-- The `SectorSize` enum of src/meta_data.rs, discriminants 512 and 4096. -/
inductive SectorSize where
  | Sector512
  | Sector4096
deriving DecidableEq

/-- The Rust `as u32` / `as u64` cast of the enum discriminant. -/
def SectorSize.toU32 : SectorSize → Nat
  | SectorSize.Sector512 => 512
  | SectorSize.Sector4096 => 4096

/-- `impl TryFrom<u32> for SectorSize` of src/meta_data.rs lines 276-286,
transcribed exactly: the arm for 4096 also yields `Sector512`. -/
def sectorSizeTryFrom (v : Nat) : Except Unit SectorSize :=
  if v = SectorSize.toU32 SectorSize.Sector512 then Except.ok SectorSize.Sector512
  else if v = SectorSize.toU32 SectorSize.Sector4096 then Except.ok SectorSize.Sector512
  else Except.error ()

/-- `t_sector_size` of src/meta_data.rs lines 192-198: decode a
little-endian u32 and convert through `TryFrom`; the `Err` arm is a
`todo!()` panic, modelled as `none`. -/
def t_sector_size (bs : Bytes) : Option SectorSize :=
  match sectorSizeTryFrom (leNat (bs.take 4)) with
  | Except.ok SectorSize.Sector512 => some SectorSize.Sector512
  | Except.ok SectorSize.Sector4096 => some SectorSize.Sector4096
  | Except.error _ => none

/-! ## BAT geometry (src/bat.rs) -/

/-- `calc_chunk_ratio` of src/bat.rs lines 70-72: integer (u64) division;
the result fits u64 for all arguments (numerator is at most 2^35). -/
def calc_chunk_ratio (sector_size : SectorSize) (block_size : Nat) : Nat :=
  2 ^ 23 * sector_size.toU32 / block_size

/-! ## IEEE binary64 model

`calc_payload_blocks_count`, `calc_sector_bitmap_blocks_count` and
`calc_total_bat_entries_fixed_dynamic` in src/bat.rs compute through `f64`
(`as f64`, `/`, `.ceil()`, `.floor()`, `as u64`).  The embedding models the
finite nonnegative `f64` values produced along the way as dyadic numbers
`m * 2^e` with `m : Nat`, `e : Int`, and models each operation as IEEE 754
round-to-nearest, ties-to-even on these dyadics:

  * `u64 as f64` rounds the integer to 53 significant bits (`f64ofNat`);
  * `/` is correctly rounded division (`f64div`); every quotient arising
    from `u64` inputs lies far inside the normal range, so neither
    overflow, underflow nor subnormals can occur;
  * `.ceil()` / `.floor()` are exact on f64 (the result of rounding a
    value of magnitude < 2^53 to an integer is representable, and values
    ≥ 2^53 are already integers), so they are modelled as the exact
    ceiling/floor of the dyadic;
  * `x as u64` truncates; on the integer results here it is the identity
    saturated to `2^64 - 1`.

The representation is not kept normalized (a significand of 2^53 may
appear after rounding up); all reasoning is value-level through `F64.val`. -/

/-- Floor of log base 2 with explicit fuel (fuel 128 covers every number
appearing in this development). -/
def natLog2F : Nat → Nat → Nat
  | 0, _ => 0
  | fuel + 1, n => if n < 2 then 0 else natLog2F fuel (n / 2) + 1

/-- Floor of log base 2 of a positive number below 2^128. -/
def log2N (n : Nat) : Nat := natLog2F 128 n

/-- A finite nonnegative binary64 value `m * 2^e`. -/
structure F64 where
  m : Nat
  e : Int
deriving DecidableEq

/-- The rational value of an `F64` (used in proofs only). -/
def F64.val (x : F64) : ℚ := (x.m : ℚ) * (2 : ℚ) ^ x.e

/-- Round-to-nearest, ties-to-even integer rounding of the quotient
`a / b`. -/
def roundNEdiv (a b : Nat) : Nat :=
  let q := a / b
  let r := a % b
  if 2 * r < b then q
  else if b < 2 * r then q + 1
  else if q % 2 = 0 then q else q + 1

/-- `n as f64` for a `u64` value: round `n` to 53 significant bits,
ties to even.  Exact whenever `n < 2^53`. -/
def f64ofNat (n : Nat) : F64 :=
  if n = 0 then ⟨0, 0⟩
  else
    let e := log2N n
    if e ≤ 52 then ⟨n * 2 ^ (52 - e), (e : Int) - 52⟩
    else ⟨roundNEdiv n (2 ^ (e - 52)), (e : Int) - 52⟩

/-- Correctly rounded binary64 division of two nonnegative finite values
whose significands lie in [2^52, 2^53] (as produced by `f64ofNat` and by
`f64div` itself).  The zero-divisor and zero-dividend cases are junk
values; every caller handles those cases separately. -/
def f64div (x y : F64) : F64 :=
  if y.m = 0 then ⟨0, 0⟩
  else if x.m = 0 then ⟨0, 0⟩
  else if y.m ≤ x.m then ⟨roundNEdiv (x.m * 2 ^ 52) y.m, x.e - y.e - 52⟩
  else ⟨roundNEdiv (x.m * 2 ^ 53) y.m, x.e - y.e - 53⟩

/-- `.ceil()` followed by `as u64` (before saturation) on a nonnegative
dyadic: the exact ceiling. -/
def ceilF64 (x : F64) : Nat :=
  if 0 ≤ x.e then x.m * 2 ^ x.e.toNat
  else (x.m + 2 ^ (-x.e).toNat - 1) / 2 ^ (-x.e).toNat

/-- `.floor()` followed by `as u64` (before saturation) on a nonnegative
dyadic: the exact floor. -/
def floorF64 (x : F64) : Nat :=
  if 0 ≤ x.e then x.m * 2 ^ x.e.toNat
  else x.m / 2 ^ (-x.e).toNat

/-- The saturation bound of `as u64` on a large float. -/
def u64Max : Nat := 2 ^ 64 - 1

/-- `calc_payload_blocks_count` of src/bat.rs lines 74-76:
`(virtual_disk_size as f64 / block_size as f64).ceil() as u64`.
A zero `block_size` gives +inf (saturating to `u64Max`) or NaN (cast to
0); no panic is possible on this path. -/
def calc_payload_blocks_count (virtual_disk_size block_size : Nat) : Nat :=
  if block_size = 0 then (if virtual_disk_size = 0 then 0 else u64Max)
  else min (ceilF64 (f64div (f64ofNat virtual_disk_size) (f64ofNat block_size))) u64Max

/-- `calc_sector_bitmap_blocks_count` of src/bat.rs lines 78-83:
`(payload_blocks_count as f64 / chunk_ratio as f64).ceil() as u64`. -/
def calc_sector_bitmap_blocks_count (payload_blocks_count chunk_ratio : Nat) : Nat :=
  if chunk_ratio = 0 then (if payload_blocks_count = 0 then 0 else u64Max)
  else min (ceilF64 (f64div (f64ofNat payload_blocks_count) (f64ofNat chunk_ratio))) u64Max

/-- `calc_total_bat_entries_fixed_dynamic` of src/bat.rs lines 85-90:
`((payload_blocks_count - 1) as f64 / chunk_ratio as f64).floor() as u64
 + payload_blocks_count`.
The `u64` subtraction is modelled as truncated `Nat` subtraction; callers
in this file only use it with `payload_blocks_count ≥ 1` (at 0 the Rust
subtraction would wrap or panic). -/
def calc_total_bat_entries_fixed_dynamic (payload_blocks_count chunk_ratio : Nat) : Nat :=
  (if chunk_ratio = 0 then (if payload_blocks_count - 1 = 0 then 0 else u64Max)
   else min (floorF64 (f64div (f64ofNat (payload_blocks_count - 1)) (f64ofNat chunk_ratio))) u64Max)
  + payload_blocks_count

/-- `calc_total_bat_entries_differencing` of src/bat.rs lines 92-97. -/
def calc_total_bat_entries_differencing (sector_bitmap_blocks_count chunk_ratio : Nat) : Nat :=
  sector_bitmap_blocks_count * (chunk_ratio + 1)

/-! ## Errors (src/error.rs)

`UnknownRTEntryFound` carries `guid.to_string()` in the source; the
embedding carries the GUID value itself.  `MissingKnownRegion` carries a
static string; the embedding carries the `KnowRegion`-style tag as a
`String` too. -/

/-- The `VhdxError` enum of src/error.rs (variants used by the embedded
functions; `ParseError` and `IoError` stand for their whole families). -/
inductive VhdxError where
  | ParseError
  | IoError
  | UnknownRTEntryFound (guid : Nat)
  | MissingKnownRegion (region : String)
  | SignatureError (expected got : Signature)
  | Crc32Error (expected got : Nat)
  | VhdxHeaderError
  | VersionError (v : Nat)
  | LogVersionError (v : Nat)
  | LogLengthError (v : Nat)
  | LogOffsetError (v : Nat)
  | RTEntryCountError (v : Nat)
deriving DecidableEq

/-! ## Header and current-header election (src/vhdx_header.rs, src/vhdx.rs) -/

/-- The `Header` structure of src/vhdx_header.rs. -/
structure Header where
  signature : Signature
  checksum : Nat
  seq_number : Nat
  file_write_guid : Nat
  data_write_guid : Nat
  log_guid : Nat
  log_version : Nat
  version : Nat
  log_length : Nat
  log_offset : Nat
deriving DecidableEq

/-- `impl Crc32 for Header` of src/vhdx_header.rs lines 192-210: CRC-32C
over the 4-KiB header image rebuilt from the fields, with the checksum
field zeroed and 4016 zero padding bytes. -/
def Header.crc32 (h : Header) : Nat :=
  crc32c (headSignBytes ++ leBytes 4 0 ++ leBytes 8 h.seq_number ++
    leBytes 16 h.file_write_guid ++ leBytes 16 h.data_write_guid ++
    leBytes 16 h.log_guid ++ leBytes 2 h.log_version ++ leBytes 2 h.version ++
    leBytes 4 h.log_length ++ leBytes 8 h.log_offset ++ List.replicate 4016 0)

/-- `check_sign_and_crc` of src/vhdx.rs lines 213-227. -/
def check_sign_and_crc (h : Header) : Except VhdxError Unit :=
  if h.signature ≠ Signature.Head then
    Except.error (VhdxError.SignatureError Signature.Head h.signature)
  else if h.checksum ≠ h.crc32 then
    Except.error (VhdxError.Crc32Error h.checksum h.crc32)
  else Except.ok ()

/-- Validity of a header as the election uses it (`r.is_ok()`). -/
def headerValid (h : Header) : Bool :=
  (check_sign_and_crc h).isOk

/-- `get_current_header` of src/vhdx.rs lines 194-211, transcribed
branch for branch. -/
def get_current_header (h1 h2 : Header) : Except VhdxError (Nat × Header) :=
  let r1 := check_sign_and_crc h1
  let r2 := check_sign_and_crc h2
  if ¬ r1.isOk ∧ ¬ r2.isOk then Except.error VhdxError.VhdxHeaderError
  else if ¬ r1.isOk ∧ r2.isOk then Except.ok (2, h2)
  else if r1.isOk ∧ ¬ r2.isOk then Except.ok (1, h1)
  else if h1.seq_number > h2.seq_number then Except.ok (1, h1)
  else Except.ok (2, h2)

/-- A concrete header skeleton used by the closed-instance theorems: all
election-relevant fields valid, sequence number 5. -/
def hdrBase1 : Header :=
  { signature := Signature.Head, checksum := 0, seq_number := 5,
    file_write_guid := 0x11, data_write_guid := 0x22, log_guid := 0,
    log_version := 0, version := 1, log_length := 2 ^ 20, log_offset := 2 ^ 20 }

/-- A second skeleton: same sequence number 5, different data-write GUID,
so that electing it is observably different from electing `hdrBase1`. -/
def hdrBase2 : Header :=
  { signature := Signature.Head, checksum := 0, seq_number := 5,
    file_write_guid := 0x11, data_write_guid := 0x33, log_guid := 0,
    log_version := 0, version := 1, log_length := 2 ^ 20, log_offset := 2 ^ 20 }

/-- `hdrBase1` with its stored checksum set to its own recomputed CRC, so
that `check_sign_and_crc` accepts it. -/
def hdrValid1 : Header := { hdrBase1 with checksum := hdrBase1.crc32 }

/-- `hdrBase2` made CRC-valid the same way. -/
def hdrValid2 : Header := { hdrBase2 with checksum := hdrBase2.crc32 }

/-! ## Region table (src/vhdx_header.rs lines 259-385)

The `BAT_ENTRY` / `META_DATA_ENTRY` GUID constants are imported from
`crate::signatures`, whose top-level module file is not present under
src/; their values appear verbatim in src/src/vhdx/vhdx.rs (and in the
spec): BAT `2DC27766-F623-4200-9D64-115E9BFD4A08`, metadata
`8B7CA206-4790-4B9A-B8FE-575F050F886E`. -/

/-- The 128-bit value of a GUID given in display form: three leading
little-endian fields and 8 verbatim trailing bytes (`Uuid::to_bytes_le`
order, matching `Builder::from_slice_le` parsing). -/
def guidFromFields (d1 d2 d3 : Nat) (d4 : Bytes) : Nat :=
  leNat (leBytes 4 d1 ++ leBytes 2 d2 ++ leBytes 2 d3 ++ d4)

/-- The BAT region GUID. -/
def batEntryGuid : Nat :=
  guidFromFields 0x2DC27766 0xF623 0x4200 [0x9D, 0x64, 0x11, 0x5E, 0x9B, 0xFD, 0x4A, 0x08]

/-- The metadata region GUID. -/
def metaDataEntryGuid : Nat :=
  guidFromFields 0x8B7CA206 0x4790 0x4B9A [0xB8, 0xFE, 0x57, 0x5F, 0x05, 0x0F, 0x88, 0x6E]

/-- An `RTEntry` of src/vhdx_header.rs. -/
structure RTEntry where
  guid : Nat
  file_offset : Nat
  length : Nat
  required : Bool
deriving DecidableEq

/-- `parse_entry` of src/vhdx_header.rs lines 359-364 over a 32-byte
buffer: GUID (16, little-endian form), u64 offset, u32 length, and
`t_bool_u32` (u32 compared against 0) for `required`. -/
def parse_rt_entry (bs : Bytes) : RTEntry :=
  { guid := leNat (bs.take 16),
    file_offset := leNat ((bs.drop 16).take 8),
    length := leNat ((bs.drop 24).take 4),
    required := decide (0 < leNat ((bs.drop 28).take 4)) }

/-- The source's `HashMap<KnowRegion, RTEntry>` has exactly the two
possible keys `Bat` and `MetaData`; the embedding stores one optional
entry per key (insert overwrites, as `HashMap::insert` does). -/
structure RegionMap where
  bat : Option RTEntry
  meta_data : Option RTEntry
deriving DecidableEq

/-- The decoded `RegionTable` of src/vhdx_header.rs. -/
structure RegionTable where
  signature : Signature
  checksum : Nat
  entry_count : Nat
  table_entries : RegionMap
deriving DecidableEq

/-- The entry-count field of a region-table byte image (u32 at offset 8). -/
def rtEntryCount (b : Bytes) : Nat := leNat ((b.drop 8).take 4)

/-- The `i`-th 32-byte entry block of a region-table byte image. -/
def rtEntrySlice (b : Bytes) (i : Nat) : Bytes := (b.drop (16 + 32 * i)).take 32

/-- Whether a GUID is one of the two recognized region GUIDs. -/
def isKnownRegionGuid (g : Nat) : Bool :=
  decide (g = batEntryGuid) || decide (g = metaDataEntryGuid)

/-- The entry loop of `RegionTable::deserialize` (src/vhdx_header.rs lines
315-324): read a 32-byte entry, classify its GUID (`BAT_ENTRY` →
`KnowRegion::Bat`, `META_DATA_ENTRY` → `KnowRegion::MetaData`, anything
else → `Err(UnknownRTEntryFound)`), insert, repeat `entry_count` times. -/
def rtLoop (b : Bytes) : Nat → Nat → RegionMap → Except VhdxError RegionMap
  | _, 0, m => Except.ok m
  | pos, n + 1, m =>
    match readSlice b pos 32 with
    | none => Except.error VhdxError.IoError
    | some ebs =>
      let e := parse_rt_entry ebs
      if e.guid = batEntryGuid then rtLoop b (pos + 32) n { m with bat := some e }
      else if e.guid = metaDataEntryGuid then
        rtLoop b (pos + 32) n { m with meta_data := some e }
      else Except.error (VhdxError.UnknownRTEntryFound e.guid)

/-- `RegionTable::deserialize` of src/vhdx_header.rs lines 304-330: parse
the 16-byte fixed header (signature, checksum, entry count, reserved;
none of them validated here), then the entry loop.  The final
`seek(SeekFrom::Current(offset))` bookkeeping touches no decoded value
and is not modelled (for entry counts above 2047 the source's `offset`
subtraction underflows; the theorems below stay within that bound). -/
def RegionTable.deserialize (b : Bytes) : Except VhdxError RegionTable :=
  match readSlice b 0 16 with
  | none => Except.error VhdxError.IoError
  | some hdr =>
    (rtLoop b 16 (leNat ((hdr.drop 8).take 4)) ⟨none, none⟩).map fun m =>
      { signature := t_sign_u32 (hdr.take 4),
        checksum := leNat ((hdr.drop 4).take 4),
        entry_count := leNat ((hdr.drop 8).take 4),
        table_entries := m }

/-- A concrete region-table image: entry count 1, and one entry whose
GUID (16 bytes of 0xAB) is neither region GUID and whose required field
is zero. -/
def rtExBytes : Bytes :=
  regiSignBytes ++ [0, 0, 0, 0] ++ [1, 0, 0, 0] ++ [0, 0, 0, 0] ++
    List.replicate 16 0xAB ++ List.replicate 16 0

/-! ## File type identifier (src/vhdx_header.rs lines 65-95, src/parse_utils.rs t_creator) -/

/-- `chunks_exact(2)` + little-endian u16 assembly of `t_creator`
(src/parse_utils.rs lines 59-71): `((b[1] as u16) << 8) | (b[0] as u16)`;
a trailing odd byte is dropped. -/
def utf16Units : Bytes → List Nat
  | b0 :: b1 :: rest => (b0 % 256 + 256 * (b1 % 256)) :: utf16Units rest
  | _ => []

/-- `String::from_utf16`: decode UTF-16 code units to scalar values;
`none` on an unpaired surrogate. -/
def decodeUtf16 : List Nat → Option (List Nat)
  | [] => some []
  | u :: rest =>
    if u < 0xD800 ∨ 0xE000 ≤ u then (decodeUtf16 rest).map (fun t => u :: t)
    else if u < 0xDC00 then
      match rest with
      | [] => none
      | v :: rest2 =>
        if 0xDC00 ≤ v ∧ v < 0xE000 then
          (decodeUtf16 rest2).map
            (fun t => (0x10000 + (u - 0xD800) * 0x400 + (v - 0xDC00)) :: t)
        else none
    else none

/-- `trim_end_matches(char::from(0))`: drop every trailing NUL scalar. -/
def trimTrailingZeros (l : List Nat) : List Nat :=
  (l.reverse.dropWhile (fun c => c == 0)).reverse

/-- `t_creator` of src/parse_utils.rs lines 59-71: take 512 bytes, decode
UTF-16LE (panicking — `none` — on invalid data), trim trailing NULs.
The decoded string is modelled as its list of Unicode scalar values. -/
def t_creator (bs : Bytes) : Option (List Nat) :=
  (decodeUtf16 (utf16Units (bs.take 512))).map trimTrailingZeros

/-- The `FileTypeIdentifier` structure of src/vhdx_header.rs. -/
structure FileTypeIdentifier where
  signature : Signature
  creator : List Nat
deriving DecidableEq

/-- `FileTypeIdentifier::deserialize` of src/vhdx_header.rs lines 80-95:
read the full 64-KiB slot, classify the first 8 bytes with `t_sign_u64`
(storing the result without any check), decode the creator string.  The
outer `Option` is `none` exactly when `t_creator`'s `unwrap` panics. -/
def FileTypeIdentifier.deserialize (b : Bytes) :
    Option (Except VhdxError FileTypeIdentifier) :=
  match readSlice b 0 65536 with
  | none => some (Except.error VhdxError.IoError)
  | some buf =>
    match t_creator (buf.drop 8) with
    | none => none
    | some creator => some (Except.ok ⟨t_sign_u64 (buf.take 8), creator⟩)

/-! ## Metadata table (src/meta_data.rs)

The metadata item GUID constants live in the crate's `signatures` module
(src/src/vhdx/signatures.rs). -/

/-- `FILE_PARAMETERS`: CAA16737-FA36-4D43-B3B6-33F0AA44E76B. -/
def fileParametersGuid : Nat :=
  guidFromFields 0xCAA16737 0xFA36 0x4D43 [0xB3, 0xB6, 0x33, 0xF0, 0xAA, 0x44, 0xE7, 0x6B]

/-- `VIRTUAL_DISK_SIZE`: 2FA54224-CD1B-4876-B211-5DBED83BF4B8. -/
def virtualDiskSizeGuid : Nat :=
  guidFromFields 0x2FA54224 0xCD1B 0x4876 [0xB2, 0x11, 0x5D, 0xBE, 0xD8, 0x3B, 0xF4, 0xB8]

/-- `VIRTUAL_DISK_ID`: BECA12AB-B2E6-4523-93EF-C309E000C746. -/
def virtualDiskIdGuid : Nat :=
  guidFromFields 0xBECA12AB 0xB2E6 0x4523 [0x93, 0xEF, 0xC3, 0x09, 0xE0, 0x00, 0xC7, 0x46]

/-- `LOGICAL_SECTOR_SIZE`: 8141BF1D-A96F-4709-BA47-F233A8FAAB5F. -/
def logicalSectorSizeGuid : Nat :=
  guidFromFields 0x8141BF1D 0xA96F 0x4709 [0xBA, 0x47, 0xF2, 0x33, 0xA8, 0xFA, 0xAB, 0x5F]

/-- `PHYSICAL_SECTOR_SIZE`: CDA348C7-445D-4471-9CC9-E9885251C556. -/
def physicalSectorSizeGuid : Nat :=
  guidFromFields 0xCDA348C7 0x445D 0x4471 [0x9C, 0xC9, 0xE9, 0x88, 0x52, 0x51, 0xC5, 0x56]

/-- The `Entry` structure of src/meta_data.rs lines 211-219. -/
structure MDEntry where
  item_id : Nat
  offset : Nat
  length : Nat
  is_user : Bool
  is_virtual_disk : Bool
  is_required : Bool
deriving DecidableEq

/-- `parse_entry` of src/meta_data.rs lines 241-257: GUID, u32 offset,
u32 length, then `bits(t_3_flags_u32)` on the next byte.  The nom bit
parser consumes the byte MSB-first: it skips bits 7..3 and returns
(bit 0, bit 1, bit 2) as (is_user, is_virtual_disk, is_required). -/
def parse_md_entry (bs : Bytes) : MDEntry :=
  { item_id := leNat (bs.take 16),
    offset := leNat ((bs.drop 16).take 4),
    length := leNat ((bs.drop 20).take 4),
    is_user := (bs.getD 24 0).testBit 0,
    is_virtual_disk := (bs.getD 24 0).testBit 1,
    is_required := (bs.getD 24 0).testBit 2 }

/-- The `FileParameters` structure of src/meta_data.rs lines 294-299. -/
structure FileParameters where
  block_size : Nat
  leave_block_allocated : Bool
  has_parent : Bool
deriving DecidableEq

/-- `parse_file_params` of src/meta_data.rs lines 259-268: u32 block
size, then `bits(t_2_flags_u32)` on byte 4 (skip bits 7..4, return
(bit 2, bit 3) as (leave_block_allocated, has_parent)). -/
def parse_file_params (bs : Bytes) : FileParameters :=
  { block_size := leNat (bs.take 4),
    leave_block_allocated := (bs.getD 4 0).testBit 2,
    has_parent := (bs.getD 4 0).testBit 3 }

/-- The source's `HashMap<Uuid, Entry>` only ever holds the five
well-known item GUIDs as keys; the embedding stores one optional entry
per key. -/
structure MDEntries where
  file_parameters : Option MDEntry
  virtual_disk_size : Option MDEntry
  virtual_disk_id : Option MDEntry
  logical_sector_size : Option MDEntry
  physical_sector_size : Option MDEntry
deriving DecidableEq

/-- The GUID dispatch of the entry loop (src/meta_data.rs lines 110-127):
recognized GUIDs are inserted; anything else is
`panic!("Could not identify signature for read metadata entry")`. -/
def mdInsert (m : MDEntries) (e : MDEntry) : Option MDEntries :=
  if e.item_id = fileParametersGuid then some { m with file_parameters := some e }
  else if e.item_id = virtualDiskSizeGuid then some { m with virtual_disk_size := some e }
  else if e.item_id = virtualDiskIdGuid then some { m with virtual_disk_id := some e }
  else if e.item_id = logicalSectorSizeGuid then some { m with logical_sector_size := some e }
  else if e.item_id = physicalSectorSizeGuid then some { m with physical_sector_size := some e }
  else none

/-- The entry loop of `MetaData::deserialize` (src/meta_data.rs lines
101-129): `for _ in 0..5` — the iteration count is the literal 5. -/
def mdLoop (b : Bytes) : Nat → Nat → MDEntries → Option (Except VhdxError MDEntries)
  | _, 0, m => some (Except.ok m)
  | pos, n + 1, m =>
    match readSlice b pos 32 with
    | none => some (Except.error VhdxError.IoError)
    | some s =>
      match mdInsert m (parse_md_entry s) with
      | none => none
      | some m' => mdLoop b (pos + 32) n m'

/-- The decoded `MetaData` of src/meta_data.rs lines 30-51. -/
structure MetaData where
  signature : Signature
  entry_count : Nat
  file_parameters : FileParameters
  virtual_disk_size : Nat
  virtual_disk_id : Nat
  logical_sector_size : SectorSize
  physical_sector_size : SectorSize
  chunk_ratio : Nat
  payload_blocks_count : Nat
  sector_bitmaps_blocks_count : Nat
  total_bat_entries_fixed_dynamic : Nat
  total_bat_entries_differencing : Nat
  entries : MDEntries
deriving DecidableEq

/-- The body of `MetaData::deserialize` after the 32-byte header read:
exactly five 32-byte entries, then the five typed payloads at their
declared offsets.  `sig` and `cnt` are the two values taken from the
header (`t_sign_u64` of bytes 0..8, the u16 at bytes 10..12); `cnt` is
stored in the result and used nowhere else.  `none` models the source's
panics: an unrecognized entry GUID, a missing map key (`entries[&KEY]`),
an out-of-range sector size (`todo!()`), the u64 division by a zero
block size in `calc_chunk_ratio`, and the u64 subtraction
`payload_blocks_count - 1` at zero. -/
def mdBody (b : Bytes) (sig : Signature) (cnt : Nat) : Option (Except VhdxError MetaData) :=
  match mdLoop b 32 5 ⟨none, none, none, none, none⟩ with
  | none => none
  | some (Except.error e) => some (Except.error e)
  | some (Except.ok ent) =>
    match ent.file_parameters with
    | none => none
    | some efp =>
      match readSlice b efp.offset 8 with
      | none => some (Except.error VhdxError.IoError)
      | some sfp =>
        match ent.virtual_disk_size with
        | none => none
        | some evs =>
          match readSlice b evs.offset 8 with
          | none => some (Except.error VhdxError.IoError)
          | some svs =>
            match ent.virtual_disk_id with
            | none => none
            | some evi =>
              match readSlice b evi.offset 16 with
              | none => some (Except.error VhdxError.IoError)
              | some svi =>
                match ent.logical_sector_size with
                | none => none
                | some els =>
                  match readSlice b els.offset 4 with
                  | none => some (Except.error VhdxError.IoError)
                  | some sls =>
                    match t_sector_size sls with
                    | none => none
                    | some lss =>
                      match ent.physical_sector_size with
                      | none => none
                      | some eps =>
                        match readSlice b eps.offset 4 with
                        | none => some (Except.error VhdxError.IoError)
                        | some sps =>
                          match t_sector_size sps with
                          | none => none
                          | some pss =>
                            let fp := parse_file_params sfp
                            if fp.block_size = 0 then none
                            else
                              let cr := calc_chunk_ratio lss fp.block_size
                              let pbc := calc_payload_blocks_count (leNat (svs.take 8)) fp.block_size
                              if pbc = 0 then none
                              else
                                some (Except.ok
                                  { signature := sig,
                                    entry_count := cnt,
                                    file_parameters := fp,
                                    virtual_disk_size := leNat (svs.take 8),
                                    virtual_disk_id := leNat (svi.take 16),
                                    logical_sector_size := lss,
                                    physical_sector_size := pss,
                                    chunk_ratio := cr,
                                    payload_blocks_count := pbc,
                                    sector_bitmaps_blocks_count :=
                                      calc_sector_bitmap_blocks_count pbc cr,
                                    total_bat_entries_fixed_dynamic :=
                                      calc_total_bat_entries_fixed_dynamic pbc cr,
                                    total_bat_entries_differencing :=
                                      calc_total_bat_entries_differencing
                                        (calc_sector_bitmap_blocks_count pbc cr) cr,
                                    entries := ent })

/-- `MetaData::deserialize` of src/meta_data.rs lines 87-190, with the
byte list addressed from the metadata region base (the reader position
`start_pos` at entry; every later seek in the source is
`start_pos + entry.offset`).  Reads the 32-byte header (signature at
bytes 0..8, entry count at bytes 10..12), then `mdBody`. -/
def MetaData.deserialize (b : Bytes) : Option (Except VhdxError MetaData) :=
  match readSlice b 0 32 with
  | none => some (Except.error VhdxError.IoError)
  | some hdr => mdBody b (t_sign_u64 (hdr.take 8)) (leNat ((hdr.drop 10).take 2))

/-- The `k`-th 32-byte entry block of a metadata-table byte image. -/
def mdEntrySlice (b : Bytes) (k : Nat) : Bytes := (b.drop (32 + 32 * k)).take 32

/-- A concrete 232-byte metadata region image: declared entry count 5,
the five well-known entries at offsets 192/200/208/224/228, payloads a
1-MiB block size, a 1-GiB virtual disk, GUID 0x42, and 512-byte logical
and physical sectors. -/
def mdExBytes : Bytes :=
  metaDataSignBytes ++ [0, 0] ++ [5, 0] ++ List.replicate 20 0 ++
  (leBytes 16 fileParametersGuid ++ leBytes 4 192 ++ leBytes 4 8 ++ List.replicate 8 0) ++
  (leBytes 16 virtualDiskSizeGuid ++ leBytes 4 200 ++ leBytes 4 8 ++ List.replicate 8 0) ++
  (leBytes 16 virtualDiskIdGuid ++ leBytes 4 208 ++ leBytes 4 16 ++ List.replicate 8 0) ++
  (leBytes 16 logicalSectorSizeGuid ++ leBytes 4 224 ++ leBytes 4 4 ++ List.replicate 8 0) ++
  (leBytes 16 physicalSectorSizeGuid ++ leBytes 4 228 ++ leBytes 4 4 ++ List.replicate 8 0) ++
  leBytes 4 (2 ^ 20) ++ List.replicate 4 0 ++
  leBytes 8 (2 ^ 30) ++
  leBytes 16 0x42 ++
  leBytes 4 512 ++
  leBytes 4 512

/-! ## Log entries and the log-sequence selector (src/log.rs, src/vhdx.rs) -/

/-- The `LogHeader` structure of src/log.rs lines 105-156. -/
structure LogHeader where
  signature : Signature
  checksum : Nat
  entry_length : Nat
  tail : Nat
  seq_number : Nat
  descript_count : Nat
  log_guid : Nat
  flushed_file_offset : Nat
  last_file_offset : Nat
deriving DecidableEq

/-- The `ZeroDesc` structure of src/log.rs lines 255-269. -/
structure ZeroDesc where
  signature : Signature
  zero_length : Nat
  file_offset : Nat
  seq_number : Nat
deriving DecidableEq

/-- The `DataSector` structure of src/log.rs lines 375-392. -/
structure DataSector where
  signature : Signature
  seq_high : Nat
  data : Bytes
  seq_low : Nat
deriving DecidableEq

/-- `DataSector::sequence_number` of src/log.rs lines 403-405. -/
def DataSector.sequence_number (s : DataSector) : Nat :=
  (s.seq_high <<< 32) ||| s.seq_low

/-- The `DataDesc` structure of src/log.rs lines 307-329. -/
structure DataDesc where
  signature : Signature
  trailing_bytes : Bytes
  leading_bytes : Bytes
  file_offset : Nat
  seq_number : Nat
  data_sector : Option DataSector
deriving DecidableEq

/-- The `Descriptor` enum of src/log.rs lines 250-253. -/
inductive Descriptor where
  | Zero (d : ZeroDesc)
  | Data (d : DataDesc)
deriving DecidableEq

/-- The `LogEntry` structure of src/log.rs lines 26-29. -/
structure LogEntry where
  header : LogHeader
  descriptors : List Descriptor
deriving DecidableEq

/-- `impl Crc32 for LogEntry` of src/log.rs lines 96-103, transcribed
exactly: the digest is finalized without feeding any bytes, so the value
is the CRC-32C of the empty message. -/
def LogEntry.crc32 (_ : LogEntry) : Nat :=
  crc32c []

/-- `impl Crc32 for LogHeader` of src/log.rs lines 229-246, transcribed
exactly: the digest covers only the 64 header bytes, rebuilt from the
fields with the stored checksum fed as-is and the reserved word zeroed. -/
def LogHeader.crc32 (h : LogHeader) : Nat :=
  crc32c (logeSignBytes ++ leBytes 4 h.checksum ++ leBytes 4 h.entry_length ++
    leBytes 4 h.tail ++ leBytes 8 h.seq_number ++ leBytes 4 h.descript_count ++
    leBytes 4 0 ++ leBytes 16 h.log_guid ++ leBytes 8 h.flushed_file_offset ++
    leBytes 8 h.last_file_offset)

/-- Whether a descriptor (and, for a data descriptor, its attached data
sector) carries the entry header's sequence number (spec section 4.12). -/
def Descriptor.seqMatches (d : Descriptor) (seq : Nat) : Bool :=
  match d with
  | Descriptor.Zero z => z.seq_number == seq
  | Descriptor.Data dd =>
    dd.seq_number == seq &&
      (match dd.data_sector with
       | none => false
       | some s => DataSector.sequence_number s == seq)

/-- Modelled from the spec: the `LogEntry` validity predicate called as
`entry.validate()` in `Vhdx::try_get_log_sequence` is absent from the
sources (the crate's `Validation` trait and its impls are not in the
repository files; the separate `LogEntry::valid` is a stub).  Spec
section 4.12 defines it: header signature is `loge`, header log GUID
equals the current header's log GUID (passed here as `g`), the
recomputed CRC matches the stored checksum (recomputed through the
crate's own `LogEntry` CRC implementation, which is in the sources), and
every descriptor's (and data sector's) sequence number equals the
header's. -/
def LogEntry.validate (g : Nat) (e : LogEntry) : Bool :=
  (e.header.signature == Signature.Loge) &&
  (e.header.log_guid == g) &&
  (e.header.checksum == LogEntry.crc32 e) &&
  e.descriptors.all (fun d => Descriptor.seqMatches d e.header.seq_number)

/-- The `LogSequence` structure: absent from the sources as a definition;
its fields (`sequence_number`, `entries`, `head_value`, `tail_value`) are
those constructed in `Vhdx::try_get_log_sequence` (src/vhdx.rs lines
123-128), matching spec section 3's LogSequence. -/
structure LogSequence where
  sequence_number : Nat
  entries : List LogEntry
  head_value : Nat
  tail_value : Nat
deriving DecidableEq

/-- Modelled from the spec: `is_empty` — no entries yet. -/
def LogSequence.is_empty (c : LogSequence) : Bool :=
  c.entries.isEmpty

/-- Modelled from the spec: "A sequence is_valid() iff it contains at
least one entry" (spec section 4.12). -/
def LogSequence.is_valid (c : LogSequence) : Bool :=
  !c.entries.isEmpty

/-- The mutable state of the selector's inner `for` loop
(src/vhdx.rs lines 144-162). -/
structure LoopSt where
  candidate : LogSequence
  read_items : Nat
  cur_head : Nat
  seq_tail : Nat
deriving DecidableEq

/-- The inner `for (i, entry) in log_entries[read_items..].iter().enumerate()`
loop of `Vhdx::try_get_log_sequence`, transcribed exactly: an entry that
fails validation breaks with `read_items = i` (the index relative to the
slice); a valid entry is appended when the candidate is empty or when its
sequence number equals `candidate.sequence_number + 1` (the anchor plus
one — the anchor is never advanced), and is skipped (no break) otherwise;
the offsets and `read_items` advance for every processed entry. -/
def innerLoop (g : Nat) : List LogEntry → Nat → LoopSt → LoopSt
  | [], _, st => st
  | e :: rest, i, st =>
    if LogEntry.validate g e = false then { st with read_items := i }
    else
      let cand :=
        if st.candidate.is_empty then
          { sequence_number := e.header.seq_number, entries := [e],
            head_value := st.cur_head, tail_value := st.candidate.tail_value }
        else if e.header.seq_number = st.candidate.sequence_number + 1 then
          { st.candidate with
              entries := st.candidate.entries ++ [e],
              head_value := st.cur_head }
        else st.candidate
      innerLoop g rest (i + 1)
        { candidate := cand,
          read_items := st.read_items + 1,
          cur_head := st.cur_head + e.header.entry_length,
          seq_tail := st.seq_tail + e.header.entry_length }

/-- The outer `loop` of `Vhdx::try_get_log_sequence` (src/vhdx.rs lines
134-178), with explicit fuel.  The source loop always terminates within
two iterations (the first pass either consumes the whole list or stops at
the first invalid entry, whose index the relative-index assignment
`read_items = i` makes the next pass's start, so the second pass breaks
immediately on an empty candidate); the fuel `length + 1` therefore never
runs out on the paths the source reaches. -/
def outerLoop (g : Nat) (log_entries : List LogEntry) :
    Nat → LogSequence → Nat → Nat → Nat → LogSequence
  | 0, active, _, _, _ => active
  | fuel + 1, active, read_items, cur_head, seq_tail =>
    let st := innerLoop g (log_entries.drop read_items) 0
      { candidate :=
          { sequence_number := 0, entries := [], head_value := 0, tail_value := seq_tail },
        read_items := read_items, cur_head := cur_head, seq_tail := seq_tail }
    if st.candidate.is_valid = false then active
    else
      let active' :=
        if st.candidate.sequence_number > active.sequence_number then st.candidate
        else active
      if st.read_items = log_entries.length then active'
      else outerLoop g log_entries fuel active' st.read_items st.cur_head st.seq_tail

/-- `Vhdx::try_get_log_sequence` of src/vhdx.rs lines 120-181 (always
`Ok` in the source; the `Result` wrapper is dropped).  The current
header's log GUID, which the absent `validate()` implementation checks
per spec section 4.12, is threaded explicitly. -/
def try_get_log_sequence (g : Nat) (log_entries : List LogEntry) : LogSequence :=
  outerLoop g log_entries (log_entries.length + 1) ⟨0, [], 0, 0⟩ 0 0 0

/-- A concrete minimal log entry for the closed-instance theorems:
signature `loge`, the given sequence number, log GUID 7, no descriptors,
and the stored checksum equal to the crate's recomputed CRC. -/
def mkLogEntry (seq : Nat) : LogEntry :=
  { header :=
      { signature := Signature.Loge, checksum := crc32c [], entry_length := 4096,
        tail := 0, seq_number := seq, descript_count := 0, log_guid := 7,
        flushed_file_offset := 2 ^ 20, last_file_offset := 2 ^ 20 },
    descriptors := [] }

/-- A concrete log-entry header for the CRC theorems, with a selectable
stored checksum. -/
def sampleLogHeader (c : Nat) : LogHeader :=
  { signature := Signature.Loge, checksum := c, entry_length := 4096, tail := 0,
    seq_number := 9, descript_count := 0, log_guid := 7,
    flushed_file_offset := 2 ^ 20, last_file_offset := 2 ^ 20 }

/-! # Theorems

The claims, settled against the definitions above. -/

/-- Sanity anchor: the standard check value of CRC-32C over "123456789". -/
theorem crc32c_check_value :
    crc32c [0x31, 0x32, 0x33, 0x34, 0x35, 0x36, 0x37, 0x38, 0x39] =
      0xE3069283 := by decide


/-- C2: the claim says decoding a sector-size field preserves the literal
value (4096 decodes to 4096) and that a value outside {512, 4096} yields a
returned `BadSectorSize` error.  The code instead maps the u32 4096 to
`Sector512` (literal value 512), and any other value hits a `todo!()`
panic (there is no `BadSectorSize` variant in `VhdxError` at all).  This
theorem evaluates the code at the failing inputs 4096 and 1024. -/
theorem c2_sector_size_code_bug :
    sectorSizeTryFrom 4096 = Except.ok SectorSize.Sector512 ∧
    SectorSize.toU32 SectorSize.Sector512 = 512 ∧
    t_sector_size (leBytes 4 4096) = some SectorSize.Sector512 ∧
    t_sector_size (leBytes 4 1024) = none := by decide


/-- C6: for sector_size in {512, 4096} and block_size a power-of-two
multiple of 1 MiB between 1 MiB and 256 MiB, the chunk ratio satisfies
`calc_chunk_ratio sector_size block_size * block_size = 2^23 * sector_size`
exactly (the divisions are exact). -/
theorem c6_chunk_ratio_identity (s : SectorSize) (t : Nat) (ht : t ≤ 8) :
    calc_chunk_ratio s (2 ^ t * 2 ^ 20) * (2 ^ t * 2 ^ 20) =
      2 ^ 23 * s.toU32 := by
  cases s <;> interval_cases t <;> decide


/-- Witness for C6 at sector size 512 and block size 32 MiB. -/
theorem c6_chunk_ratio_identity_witness :
    calc_chunk_ratio SectorSize.Sector512 (2 ^ 5 * 2 ^ 20) * (2 ^ 5 * 2 ^ 20) =
      2 ^ 23 * SectorSize.toU32 SectorSize.Sector512 :=
  c6_chunk_ratio_identity SectorSize.Sector512 5 (by decide)


/-- C7: the claim (spec scenario S1) expects chunk_ratio = 131072 for a
512-byte logical sector and a 32 MiB block, but the code (and the spec's
own §4.8 formula) gives 2^23 * 512 / 2^25 = 128. -/
theorem c7_s1_counterexample :
    calc_chunk_ratio SectorSize.Sector512 (32 * 2 ^ 20) = 128 ∧
    (128 : Nat) ≠ 131072 := by decide


/-- C7 amended: for scenario S1 (512-byte logical sector, 32 MiB block,
1 GiB virtual disk) the geometry calculator yields chunk_ratio = 128,
payload_blocks_count = 32 and total_bat_entries_fixed_dynamic = 32. -/
theorem c7_s1_geometry :
    calc_chunk_ratio SectorSize.Sector512 (32 * 2 ^ 20) = 128 ∧
    calc_payload_blocks_count (2 ^ 30) (32 * 2 ^ 20) = 32 ∧
    calc_total_bat_entries_fixed_dynamic
      (calc_payload_blocks_count (2 ^ 30) (32 * 2 ^ 20))
      (calc_chunk_ratio SectorSize.Sector512 (32 * 2 ^ 20)) = 32 := by decide


/-- C8: the claim asserts exactness of the floating-point ceiling for all
representable inputs.  At virtual_disk_size = 2^54 + 1 and block_size = 4
the `as f64` conversion rounds 2^54 + 1 down to 2^54, so the code returns
2^52 while the exact integer ceiling is 2^52 + 1. -/
theorem c8_payload_blocks_counterexample :
    calc_payload_blocks_count (2 ^ 54 + 1) 4 = 2 ^ 52 ∧
    (2 ^ 54 + 1 + 4 - 1) / 4 = 2 ^ 52 + 1 ∧
    (2 ^ 52 : Nat) ≠ 2 ^ 52 + 1 := by decide

/-- `Header.crc32` zeroes the checksum window: the stored checksum field
does not enter the recomputation. -/
theorem header_crc32_checksum_irrel (h : Header) (c : Nat) :
    Header.crc32 { h with checksum := c } = Header.crc32 h := by
  cases h
  rfl

/-- `hdrValid1` passes the signature and CRC check. -/
theorem hdrValid1_valid : headerValid hdrValid1 = true := by
  show (check_sign_and_crc hdrValid1).isOk = true
  unfold check_sign_and_crc
  rw [if_neg (not_not_intro (show hdrValid1.signature = Signature.Head from rfl)),
    if_neg (not_not_intro (show hdrValid1.checksum = hdrValid1.crc32 from
      (header_crc32_checksum_irrel hdrBase1 hdrBase1.crc32).symm))]
  rfl

/-- `hdrValid2` passes the signature and CRC check. -/
theorem hdrValid2_valid : headerValid hdrValid2 = true := by
  show (check_sign_and_crc hdrValid2).isOk = true
  unfold check_sign_and_crc
  rw [if_neg (not_not_intro (show hdrValid2.signature = Signature.Head from rfl)),
    if_neg (not_not_intro (show hdrValid2.checksum = hdrValid2.crc32 from
      (header_crc32_checksum_irrel hdrBase2 hdrBase2.crc32).symm))]
  rfl

/-- C1 amended: election behaves as claimed in the first three cases
(both invalid, exactly one valid, both valid with distinct sequence
numbers), but on a tie between two valid headers the code elects header 2,
not header 1 (`h1.sequence_number() > h2.sequence_number()` is false on a
tie, and the else branch returns `(2, h2)`). -/
theorem c1_election_behavior (h1 h2 : Header) :
    (headerValid h1 = false → headerValid h2 = false →
        get_current_header h1 h2 = Except.error VhdxError.VhdxHeaderError) ∧
    (headerValid h1 = true → headerValid h2 = false →
        get_current_header h1 h2 = Except.ok (1, h1)) ∧
    (headerValid h1 = false → headerValid h2 = true →
        get_current_header h1 h2 = Except.ok (2, h2)) ∧
    (headerValid h1 = true → headerValid h2 = true →
        h2.seq_number < h1.seq_number →
        get_current_header h1 h2 = Except.ok (1, h1)) ∧
    (headerValid h1 = true → headerValid h2 = true →
        h1.seq_number ≤ h2.seq_number →
        get_current_header h1 h2 = Except.ok (2, h2)) := by
  unfold headerValid
  refine ⟨fun hv1 hv2 => ?_, fun hv1 hv2 => ?_, fun hv1 hv2 => ?_,
    fun hv1 hv2 hs => ?_, fun hv1 hv2 hs => ?_⟩ <;>
    simp [get_current_header, hv1, hv2]
  · exact hs
  · exact hs

/-- Witness for C1 at two concrete valid headers with equal sequence
numbers: the tie elects header 2. -/
theorem c1_election_behavior_witness :
    get_current_header hdrValid1 hdrValid2 = Except.ok (2, hdrValid2) :=
  (c1_election_behavior hdrValid1 hdrValid2).2.2.2.2 hdrValid1_valid hdrValid2_valid
    (Nat.le_of_eq rfl)

/-- C1 counterexample: two concrete headers, both passing the
signature+CRC check, with equal sequence numbers; the claim says header 1
is elected, the code elects header 2 (an observably different header). -/
theorem c1_tie_counterexample :
    headerValid hdrValid1 = true ∧ headerValid hdrValid2 = true ∧
    hdrValid1.seq_number = hdrValid2.seq_number ∧
    get_current_header hdrValid1 hdrValid2 = Except.ok (2, hdrValid2) ∧
    hdrValid1 ≠ hdrValid2 := by
  have hv1 := hdrValid1_valid
  have hv2 := hdrValid2_valid
  unfold headerValid at hv1 hv2
  refine ⟨hdrValid1_valid, hdrValid2_valid, rfl, ?_, ?_⟩
  · simp [get_current_header, hv1, hv2,
      show ¬ hdrValid2.seq_number < hdrValid1.seq_number from by decide]
  · exact fun hcon => absurd (congrArg Header.data_write_guid hcon) (by decide)

/-- Unfolding step of the entry loop when the 32-byte read succeeds. -/
theorem rtLoop_succ_step (b : Bytes) (pos n : Nat) (m : RegionMap) (s : Bytes)
    (hs : readSlice b pos 32 = some s) :
    rtLoop b pos (n + 1) m =
      (if (parse_rt_entry s).guid = batEntryGuid then
        rtLoop b (pos + 32) n { m with bat := some (parse_rt_entry s) }
      else if (parse_rt_entry s).guid = metaDataEntryGuid then
        rtLoop b (pos + 32) n { m with meta_data := some (parse_rt_entry s) }
      else Except.error (VhdxError.UnknownRTEntryFound (parse_rt_entry s).guid)) := by
  simp only [rtLoop, hs]

/-- If the first `i` entries of the run carry recognized GUIDs and entry
`i` (readable, within the remaining count) carries an unrecognized one,
the entry loop fails with `UnknownRTEntryFound` for that GUID, whatever
the entries' `required` bits. -/
theorem rtLoop_first_unknown (b : Bytes) :
    ∀ (i pos n : Nat) (m : RegionMap) (si : Bytes),
      i < n →
      (∀ j < i, ∃ s, readSlice b (pos + 32 * j) 32 = some s ∧
        isKnownRegionGuid (parse_rt_entry s).guid = true) →
      readSlice b (pos + 32 * i) 32 = some si →
      isKnownRegionGuid (parse_rt_entry si).guid = false →
      rtLoop b pos n m =
        Except.error (VhdxError.UnknownRTEntryFound (parse_rt_entry si).guid) := by
  intro i
  induction i with
  | zero =>
    intro pos n m si hn hknown hsi hunk
    obtain ⟨n', rfl⟩ : ∃ n', n = n' + 1 := ⟨n - 1, (Nat.succ_pred_eq_of_pos hn).symm⟩
    rw [show pos + 32 * 0 = pos by ring] at hsi
    rw [rtLoop_succ_step b pos n' m si hsi]
    simp only [isKnownRegionGuid, Bool.or_eq_false_iff, decide_eq_false_iff_not] at hunk
    rw [if_neg hunk.1, if_neg hunk.2]
  | succ i ih =>
    intro pos n m si hn hknown hsi hunk
    obtain ⟨n', rfl⟩ : ∃ n', n = n' + 1 :=
      ⟨n - 1, (Nat.succ_pred_eq_of_pos (Nat.lt_of_le_of_lt (Nat.zero_le _) hn)).symm⟩
    obtain ⟨s0, hs0, hk0⟩ := hknown 0 (Nat.succ_pos i)
    rw [show pos + 32 * 0 = pos by ring] at hs0
    rw [rtLoop_succ_step b pos n' m s0 hs0]
    simp only [isKnownRegionGuid, Bool.or_eq_true, decide_eq_true_eq] at hk0
    have hrec : ∀ m' : RegionMap,
        rtLoop b (pos + 32) n' m' =
          Except.error (VhdxError.UnknownRTEntryFound (parse_rt_entry si).guid) := by
      intro m'
      apply ih (pos + 32) n' m' si (Nat.lt_of_succ_lt_succ hn)
      · intro j hj
        obtain ⟨s, hs, hk⟩ := hknown (j + 1) (Nat.succ_lt_succ hj)
        exact ⟨s, by rw [show pos + 32 + 32 * j = pos + 32 * (j + 1) by ring]; exact hs, hk⟩
      · rw [show pos + 32 + 32 * i = pos + 32 * (i + 1) by ring]
        exact hsi
      · exact hunk
    rcases hk0 with hk0 | hk0
    · rw [if_pos hk0]
      exact hrec _
    · by_cases hbat : (parse_rt_entry s0).guid = batEntryGuid
      · rw [if_pos hbat]
        exact hrec _
      · rw [if_neg hbat, if_pos hk0]
        exact hrec _

/-- C4 amended: region-table decoding fails with `UnknownRTEntryFound` on
the first entry whose GUID is neither the BAT nor the metadata region
GUID, regardless of that entry's required bit; unknown entries are never
retained.  (The bound `i ≤ 2047` keeps the run inside the source's
64-KiB slot bookkeeping.) -/
theorem c4_unknown_region_always_errors (b : Bytes) (i : Nat)
    (hlen : 16 + 32 * (i + 1) ≤ b.length)
    (hi : i < rtEntryCount b) (hcap : i ≤ 2047)
    (hknown : ∀ j < i, isKnownRegionGuid (parse_rt_entry (rtEntrySlice b j)).guid = true)
    (hunk : isKnownRegionGuid (parse_rt_entry (rtEntrySlice b i)).guid = false) :
    RegionTable.deserialize b =
      Except.error (VhdxError.UnknownRTEntryFound (parse_rt_entry (rtEntrySlice b i)).guid) := by
  have hsome : readSlice b 0 16 = some ((b.drop 0).take 16) := if_pos (by omega)
  simp only [RegionTable.deserialize, hsome]
  have hcount : leNat ((((b.drop 0).take 16).drop 8).take 4) = rtEntryCount b := by
    rw [List.drop_take, List.take_take]
    rfl
  rw [hcount]
  have hslice : ∀ j, j ≤ i → readSlice b (16 + 32 * j) 32 = some (rtEntrySlice b j) := by
    intro j hj
    unfold readSlice rtEntrySlice
    rw [if_pos (by omega)]
  rw [rtLoop_first_unknown b i 16 (rtEntryCount b) ⟨none, none⟩ (rtEntrySlice b i) hi
    (fun j hj => ⟨rtEntrySlice b j, hslice j (Nat.le_of_lt hj), hknown j hj⟩)
    (hslice i (Nat.le_refl i)) hunk]
  rfl

/-- Witness for C4 at the concrete image `rtExBytes`: its single entry is
unknown and non-required, and decoding errors. -/
theorem c4_unknown_region_always_errors_witness :
    RegionTable.deserialize rtExBytes =
      Except.error
        (VhdxError.UnknownRTEntryFound (parse_rt_entry (rtEntrySlice rtExBytes 0)).guid) :=
  c4_unknown_region_always_errors rtExBytes 0 (by decide) (by decide) (by decide)
    (fun j hj => absurd hj (Nat.not_lt_zero j)) (by decide)

/-- C4 counterexample: a region table whose single entry has an unknown
GUID with the required bit clear; the claim says decoding succeeds with
the entry retained, the code returns `UnknownRTEntryFound`. -/
theorem c4_nonrequired_unknown_entry_errors :
    (parse_rt_entry (rtEntrySlice rtExBytes 0)).required = false ∧
    RegionTable.deserialize rtExBytes =
      Except.error (VhdxError.UnknownRTEntryFound (leNat (List.replicate 16 0xAB))) := by
  constructor
  · decide
  · decide

/-- C5 amended: `FileTypeIdentifier::deserialize` performs no magic
check.  On every full 64-KiB input it never returns an error (in
particular never `BadMagic`): it succeeds for any first-8-bytes value,
storing `Signature::Vhdxfile` exactly when those bytes are `vhdxfile`
(`Unknown` or `MetaData` otherwise) and the UTF-16LE creator string of
bytes 8..520 trimmed of trailing NULs; when those 512 bytes are not
valid UTF-16 the `unwrap` inside `t_creator` panics instead. -/
theorem c5_no_magic_check (b : Bytes) (h : b.length = 65536) :
    (∀ e, FileTypeIdentifier.deserialize b ≠ some (Except.error e)) ∧
    (∀ u, decodeUtf16 (utf16Units ((b.drop 8).take 512)) = some u →
      FileTypeIdentifier.deserialize b =
        some (Except.ok ⟨t_sign_u64 (b.take 8), trimTrailingZeros u⟩)) ∧
    (t_sign_u64 (b.take 8) = Signature.Vhdxfile ↔ b.take 8 = ftiSignBytes) ∧
    (decodeUtf16 (utf16Units ((b.drop 8).take 512)) = none →
      FileTypeIdentifier.deserialize b = none) := by
  have hbuf : readSlice b 0 65536 = some b := by
    unfold readSlice
    rw [if_pos (by omega), List.drop_zero, List.take_of_length_le (le_of_eq h)]
  refine ⟨?_, ?_, ?_, ?_⟩
  · intro e
    simp only [FileTypeIdentifier.deserialize, hbuf]
    cases hc : t_creator (b.drop 8) with
    | none => simp
    | some c => simp
  · intro u hu
    have hc : t_creator (b.drop 8) = some (trimTrailingZeros u) := by
      unfold t_creator
      rw [hu]
      rfl
    simp only [FileTypeIdentifier.deserialize, hbuf, hc]
  · constructor
    · intro hs
      by_contra hf
      unfold t_sign_u64 at hs
      rw [if_neg hf] at hs
      by_cases hm : b.take 8 = metaDataSignBytes
      · rw [if_pos hm] at hs
        exact Signature.noConfusion hs
      · rw [if_neg hm] at hs
        exact Signature.noConfusion hs
    · intro hf
      unfold t_sign_u64
      rw [if_pos hf]
  · intro hn
    have hc : t_creator (b.drop 8) = none := by
      unfold t_creator
      rw [hn]
      rfl
    simp only [FileTypeIdentifier.deserialize, hbuf, hc]

/-- Witness for C5 at the all-zero 64-KiB input: decoding succeeds (with
signature `Unknown`) and the creator trims to the empty string. -/
theorem c5_no_magic_check_witness :
    FileTypeIdentifier.deserialize (List.replicate 65536 0) =
      some (Except.ok ⟨t_sign_u64 ((List.replicate 65536 (0:Nat)).take 8),
        trimTrailingZeros (List.replicate 256 0)⟩) :=
  (c5_no_magic_check (List.replicate 65536 0) (List.length_replicate 65536 0)).2.1
    (List.replicate 256 0)
    (by
      rw [List.drop_replicate, List.take_replicate]
      norm_num
      decide)

/-- Unfolding step of `FileTypeIdentifier::deserialize` once the 64-KiB
read succeeds. -/
theorem fti_deserialize_step (b buf : Bytes) (h : readSlice b 0 65536 = some buf) :
    FileTypeIdentifier.deserialize b =
      (match t_creator (buf.drop 8) with
       | none => none
       | some creator => some (Except.ok ⟨t_sign_u64 (buf.take 8), creator⟩)) := by
  unfold FileTypeIdentifier.deserialize
  rw [h]

/-- C5 counterexample: the all-zero 64-KiB input has a bad magic, yet
decoding returns `Ok` (signature `Unknown`, empty creator) instead of the
claimed `BadMagic` error. -/
theorem c5_bad_magic_succeeds :
    (List.replicate 65536 (0:Nat)).take 8 ≠ ftiSignBytes ∧
    FileTypeIdentifier.deserialize (List.replicate 65536 0) =
      some (Except.ok ⟨Signature.Unknown, []⟩) := by
  constructor
  · rw [List.take_replicate]
    decide
  · have hbuf : readSlice (List.replicate 65536 (0:Nat)) 0 65536 =
        some (List.replicate 65536 0) := by
      unfold readSlice
      rw [List.length_replicate, if_pos (by omega), List.drop_zero,
        List.take_of_length_le (le_of_eq (List.length_replicate 65536 0))]
    have hcr : t_creator ((List.replicate 65536 (0:Nat)).drop 8) = some [] := by
      unfold t_creator
      rw [List.drop_replicate, List.take_replicate]
      norm_num
      decide
    have hsig : t_sign_u64 ((List.replicate 65536 (0:Nat)).take 8) = Signature.Unknown := by
      rw [List.take_replicate]
      decide
    rw [fti_deserialize_step _ _ hbuf, hcr, hsig]

/-- A successful `readSlice` returns exactly the in-bounds slice. -/
theorem readSlice_some_eq (b : Bytes) (pos n : Nat) (s : Bytes)
    (h : readSlice b pos n = some s) :
    s = (b.drop pos).take n ∧ pos + n ≤ b.length := by
  unfold readSlice at h
  by_cases hin : pos + n ≤ b.length
  · rw [if_pos hin] at h
    exact ⟨(Option.some_injective _ h).symm, hin⟩
  · rw [if_neg hin] at h
    exact absurd h (by simp)

/-- Two byte images that agree outside positions 10 and 11 give equal
reads for any window avoiding those positions. -/
theorem readSlice_agree (b b' : Bytes) (pos n : Nat)
    (hlen : b'.length = b.length)
    (hagree : ∀ i : Nat, i ≠ 10 → i ≠ 11 → b'[i]? = b[i]?)
    (hpos : 12 ≤ pos ∨ pos + n ≤ 10) :
    readSlice b' pos n = readSlice b pos n := by
  unfold readSlice
  rw [hlen]
  by_cases h : pos + n ≤ b.length
  · rw [if_pos h, if_pos h]
    congr 1
    apply List.ext_getElem?
    intro i
    rw [List.getElem?_take, List.getElem?_take]
    by_cases hi : i < n
    · rw [if_pos hi, if_pos hi, List.getElem?_drop, List.getElem?_drop]
      exact hagree (pos + i) (by omega) (by omega)
    · rw [if_neg hi, if_neg hi]
  · rw [if_neg h, if_neg h]

/-- Two byte images that agree outside positions 10 and 11 have equal
8-byte prefixes. -/
theorem take8_agree (b b' : Bytes)
    (hagree : ∀ i : Nat, i ≠ 10 → i ≠ 11 → b'[i]? = b[i]?) :
    b'.take 8 = b.take 8 := by
  apply List.ext_getElem?
  intro i
  rw [List.getElem?_take, List.getElem?_take]
  by_cases hi : i < 8
  · rw [if_pos hi, if_pos hi]
    exact hagree i (by omega) (by omega)
  · rw [if_neg hi, if_neg hi]

/-- Extracting the entry-count window from the 32-byte header slice is
the same as extracting it from the whole image. -/
theorem hdr_count_window (b : Bytes) :
    ((((b.drop 0).take 32).drop 10).take 2) = (b.drop 10).take 2 := by
  rw [List.drop_zero, List.drop_take, List.take_take]
  norm_num

/-- Extracting the signature window from the 32-byte header slice is the
same as extracting it from the whole image. -/
theorem hdr_sig_window (b : Bytes) :
    (((b.drop 0).take 32).take 8) = b.take 8 := by
  rw [List.drop_zero, List.take_take]
  norm_num

/-- Unfolding step of the metadata entry loop on a failed read. -/
theorem mdLoop_step_none (b : Bytes) (pos n : Nat) (m : MDEntries)
    (hs : readSlice b pos 32 = none) :
    mdLoop b pos (n + 1) m = some (Except.error VhdxError.IoError) := by
  simp only [mdLoop, hs]

/-- Unfolding step of the metadata entry loop on a successful read. -/
theorem mdLoop_step_some (b : Bytes) (pos n : Nat) (m : MDEntries) (s : Bytes)
    (hs : readSlice b pos 32 = some s) :
    mdLoop b pos (n + 1) m =
      (match mdInsert m (parse_md_entry s) with
       | none => none
       | some m' => mdLoop b (pos + 32) n m') := by
  simp only [mdLoop, hs]

/-- The entry loop reads the same blocks on two images that agree outside
the entry-count field. -/
theorem mdLoop_agree (b b' : Bytes)
    (hread : ∀ pos n : Nat, 12 ≤ pos → readSlice b' pos n = readSlice b pos n) :
    ∀ (n pos : Nat) (m : MDEntries), 12 ≤ pos →
      mdLoop b' pos n m = mdLoop b pos n m := by
  intro n
  induction n with
  | zero => intro pos m _; rfl
  | succ n ih =>
    intro pos m hpos
    cases hr : readSlice b pos 32 with
    | none =>
      have hr' : readSlice b' pos 32 = none := by
        rw [hread pos 32 hpos]
        exact hr
      rw [mdLoop_step_none b' pos n m hr', mdLoop_step_none b pos n m hr]
    | some s =>
      have hr' : readSlice b' pos 32 = some s := by
        rw [hread pos 32 hpos]
        exact hr
      rw [mdLoop_step_some b' pos n m s hr', mdLoop_step_some b pos n m s hr]
      cases mdInsert m (parse_md_entry s) with
      | none => rfl
      | some m' => exact ih (pos + 32) m' (by omega)

/-- All present entries of an `MDEntries` have offsets at or past 12. -/
def mdOffsetsOk (m : MDEntries) : Prop :=
  (∀ e, m.file_parameters = some e → 12 ≤ e.offset) ∧
  (∀ e, m.virtual_disk_size = some e → 12 ≤ e.offset) ∧
  (∀ e, m.virtual_disk_id = some e → 12 ≤ e.offset) ∧
  (∀ e, m.logical_sector_size = some e → 12 ≤ e.offset) ∧
  (∀ e, m.physical_sector_size = some e → 12 ≤ e.offset)

/-- The entry loop only stores entries parsed from the entry blocks, so
a bound on the parsed blocks' offsets carries to the resulting map. -/
theorem mdLoop_offsets (b : Bytes) :
    ∀ (n k : Nat) (m m' : MDEntries),
      (∀ j, j < n → 12 ≤ (parse_md_entry (mdEntrySlice b (k + j))).offset) →
      mdOffsetsOk m →
      mdLoop b (32 + 32 * k) n m = some (Except.ok m') →
      mdOffsetsOk m' := by
  intro n
  induction n with
  | zero =>
    intro k m m' _ hm h
    injection h with h
    injection h with h
    exact h ▸ hm
  | succ n ih =>
    intro k m m' hs hm h
    cases hr : readSlice b (32 + 32 * k) 32 with
    | none =>
      rw [mdLoop_step_none b _ n m hr] at h
      exact absurd h (by simp)
    | some s =>
      rw [mdLoop_step_some b _ n m s hr] at h
      have hse : s = mdEntrySlice b k := (readSlice_some_eq b _ 32 s hr).1
      have hso : 12 ≤ (parse_md_entry s).offset := by
        rw [hse]
        exact hs 0 (Nat.succ_pos n)
      have hs' : ∀ j, j < n → 12 ≤ (parse_md_entry (mdEntrySlice b (k + 1 + j))).offset := by
        intro j hj
        have := hs (j + 1) (Nat.succ_lt_succ hj)
        rw [show k + (j + 1) = k + 1 + j by ring] at this
        exact this
    -- dispatch on which key the entry updates
      unfold mdInsert at h
      by_cases h1 : (parse_md_entry s).item_id = fileParametersGuid
      · rw [if_pos h1] at h
        refine ih (k + 1) { m with file_parameters := some (parse_md_entry s) } m' hs'
          ⟨?_, hm.2.1, hm.2.2.1, hm.2.2.2.1, hm.2.2.2.2⟩
          (by rw [show 32 + 32 * (k + 1) = 32 + 32 * k + 32 by ring]; exact h) 
        intro e he
        exact (Option.some_injective _ (show some (parse_md_entry s) = some e from he)) ▸ hso
      · rw [if_neg h1] at h
        by_cases h2 : (parse_md_entry s).item_id = virtualDiskSizeGuid
        · rw [if_pos h2] at h
          refine ih (k + 1) { m with virtual_disk_size := some (parse_md_entry s) } m' hs'
            ⟨hm.1, ?_, hm.2.2.1, hm.2.2.2.1, hm.2.2.2.2⟩
            (by rw [show 32 + 32 * (k + 1) = 32 + 32 * k + 32 by ring]; exact h) 
          intro e he
          exact (Option.some_injective _ (show some (parse_md_entry s) = some e from he)) ▸ hso
        · rw [if_neg h2] at h
          by_cases h3 : (parse_md_entry s).item_id = virtualDiskIdGuid
          · rw [if_pos h3] at h
            refine ih (k + 1) { m with virtual_disk_id := some (parse_md_entry s) } m' hs'
              ⟨hm.1, hm.2.1, ?_, hm.2.2.2.1, hm.2.2.2.2⟩
              (by rw [show 32 + 32 * (k + 1) = 32 + 32 * k + 32 by ring]; exact h) 
            intro e he
            exact (Option.some_injective _ (show some (parse_md_entry s) = some e from he)) ▸ hso
          · rw [if_neg h3] at h
            by_cases h4 : (parse_md_entry s).item_id = logicalSectorSizeGuid
            · rw [if_pos h4] at h
              refine ih (k + 1) { m with logical_sector_size := some (parse_md_entry s) } m' hs'
                ⟨hm.1, hm.2.1, hm.2.2.1, ?_, hm.2.2.2.2⟩
                (by rw [show 32 + 32 * (k + 1) = 32 + 32 * k + 32 by ring]; exact h) 
              intro e he
              exact (Option.some_injective _ (show some (parse_md_entry s) = some e from he)) ▸ hso
            · rw [if_neg h4] at h
              by_cases h5 : (parse_md_entry s).item_id = physicalSectorSizeGuid
              · rw [if_pos h5] at h
                refine ih (k + 1) { m with physical_sector_size := some (parse_md_entry s) } m' hs'
                  ⟨hm.1, hm.2.1, hm.2.2.1, hm.2.2.2.1, ?_⟩
                  (by rw [show 32 + 32 * (k + 1) = 32 + 32 * k + 32 by ring]; exact h) 
                intro e he
                exact (Option.some_injective _ (show some (parse_md_entry s) = some e from he)) ▸ hso
              · rw [if_neg h5] at h
                exact absurd h (by simp)

/-- The declared entry count feeds only the `entry_count` field of the
result: decoding two images that agree outside the count field (with the
payload offsets clear of it) gives the same result up to that field. -/
theorem mdBody_agree (b b' : Bytes) (sig : Signature) (cnt cnt' : Nat)
    (hread : ∀ pos n : Nat, 12 ≤ pos → readSlice b' pos n = readSlice b pos n)
    (hofs : ∀ k, k < 5 → 12 ≤ (parse_md_entry (mdEntrySlice b k)).offset) :
    mdBody b' sig cnt' =
      (mdBody b sig cnt).map (Except.map fun md => { md with entry_count := cnt' }) := by
  unfold mdBody
  rw [mdLoop_agree b b' hread 5 32 ⟨none, none, none, none, none⟩ (by omega)]
  cases hult : mdLoop b 32 5 ⟨none, none, none, none, none⟩ with
  | none => rfl
  | some r =>
    cases r with
    | error e => rfl
    | ok ent =>
      have hok : mdOffsetsOk ent := by
        apply mdLoop_offsets b 5 0 ⟨none, none, none, none, none⟩ ent
        · intro j hj
          rw [Nat.zero_add]
          exact hofs j hj
        · exact ⟨fun e he => Option.noConfusion he, fun e he => Option.noConfusion he,
            fun e he => Option.noConfusion he, fun e he => Option.noConfusion he,
            fun e he => Option.noConfusion he⟩
        · exact hult
      dsimp only
      cases hfp : ent.file_parameters with
      | none => rfl
      | some efp =>
        dsimp only
        rw [hread efp.offset 8 (hok.1 efp hfp)]
        cases hs1 : readSlice b efp.offset 8 with
        | none => rfl
        | some sfp =>
          dsimp only
          cases hvs : ent.virtual_disk_size with
          | none => rfl
          | some evs =>
            dsimp only
            rw [hread evs.offset 8 (hok.2.1 evs hvs)]
            cases hs2 : readSlice b evs.offset 8 with
            | none => rfl
            | some svs =>
              dsimp only
              cases hvi : ent.virtual_disk_id with
              | none => rfl
              | some evi =>
                dsimp only
                rw [hread evi.offset 16 (hok.2.2.1 evi hvi)]
                cases hs3 : readSlice b evi.offset 16 with
                | none => rfl
                | some svi =>
                  dsimp only
                  cases hls : ent.logical_sector_size with
                  | none => rfl
                  | some els =>
                    dsimp only
                    rw [hread els.offset 4 (hok.2.2.2.1 els hls)]
                    cases hs4 : readSlice b els.offset 4 with
                    | none => rfl
                    | some sls =>
                      dsimp only
                      cases hts1 : t_sector_size sls with
                      | none => rfl
                      | some lss =>
                        dsimp only
                        cases hps : ent.physical_sector_size with
                        | none => rfl
                        | some eps =>
                          dsimp only
                          rw [hread eps.offset 4 (hok.2.2.2.2 eps hps)]
                          cases hs5 : readSlice b eps.offset 4 with
                          | none => rfl
                          | some sps =>
                            dsimp only
                            cases hts2 : t_sector_size sps with
                            | none => rfl
                            | some pss =>
                              dsimp only
                              by_cases hbz : (parse_file_params sfp).block_size = 0
                              · rw [if_pos hbz, if_pos hbz]
                                rfl
                              · rw [if_neg hbz, if_neg hbz]
                                by_cases hpz :
                                    calc_payload_blocks_count (leNat (svs.take 8))
                                      (parse_file_params sfp).block_size = 0
                                · rw [if_pos hpz, if_pos hpz]
                                  rfl
                                · rw [if_neg hpz, if_neg hpz]
                                  rfl

/-- C10: metadata-table decoding reads exactly five 32-byte descriptor
entries whatever the declared entry_count says: the decoded entry_count
is the u16 at bytes 10..12 of the table, stored in the result, and
changing only that field changes nothing else about decoding (the
iteration is the literal `for _ in 0..5`).  The offset hypothesis keeps
the typed payloads clear of the entry-count field itself. -/
theorem c10_exactly_five_entries (b b' : Bytes)
    (hlen : b'.length = b.length)
    (hagree : ∀ i : Nat, i ≠ 10 → i ≠ 11 → b'[i]? = b[i]?)
    (hofs : ∀ k, k < 5 → 12 ≤ (parse_md_entry (mdEntrySlice b k)).offset) :
    (∀ md, MetaData.deserialize b = some (Except.ok md) →
        md.entry_count = leNat ((b.drop 10).take 2)) ∧
    MetaData.deserialize b' =
      (MetaData.deserialize b).map (Except.map fun md =>
        { md with entry_count := leNat ((b'.drop 10).take 2) }) := by
  have hread : ∀ pos n : Nat, 12 ≤ pos → readSlice b' pos n = readSlice b pos n :=
    fun pos n hp => readSlice_agree b b' pos n hlen hagree (Or.inl hp)
  constructor
  · intro md h
    unfold MetaData.deserialize at h
    cases hr : readSlice b 0 32 with
    | none =>
      rw [hr] at h
      exact absurd h (by simp)
    | some hdr =>
      rw [hr] at h
      dsimp only at h
      have hdrv := (readSlice_some_eq b 0 32 hdr hr).1
      have hself : ∀ pos n : Nat, 12 ≤ pos → readSlice b pos n = readSlice b pos n :=
        fun _ _ _ => rfl
      rw [mdBody_agree b b (t_sign_u64 (hdr.take 8)) 0
        (leNat ((hdr.drop 10).take 2)) hself hofs] at h
      cases hm0 : mdBody b (t_sign_u64 (hdr.take 8)) 0 with
      | none =>
        rw [hm0] at h
        exact absurd h (by simp)
      | some r =>
        rw [hm0] at h
        cases r with
        | error e =>
          dsimp only [Option.map, Except.map] at h
          exact absurd h (by simp)
        | ok md0 =>
          dsimp only [Option.map, Except.map] at h
          injection h with h2
          injection h2 with h3
          rw [← h3]
          dsimp only
          rw [hdrv, hdr_count_window b]
  · cases hr : readSlice b 0 32 with
    | none =>
      have hcond : ¬ (0 + 32 ≤ b.length) := by
        intro hc
        unfold readSlice at hr
        rw [if_pos hc] at hr
        exact Option.noConfusion hr
      have hr' : readSlice b' 0 32 = none := by
        unfold readSlice
        rw [hlen, if_neg hcond]
      unfold MetaData.deserialize
      rw [hr, hr']
      rfl
    | some hdr =>
      have hin : 0 + 32 ≤ b.length := (readSlice_some_eq b 0 32 hdr hr).2
      have hdrv := (readSlice_some_eq b 0 32 hdr hr).1
      have hr' : readSlice b' 0 32 = some ((b'.drop 0).take 32) := by
        unfold readSlice
        rw [hlen, if_pos hin]
      unfold MetaData.deserialize
      rw [hr, hr']
      dsimp only
      rw [hdrv, hdr_sig_window b', hdr_count_window b', hdr_sig_window b,
        hdr_count_window b, take8_agree b b' hagree]
      exact mdBody_agree b b' (t_sign_u64 (b.take 8)) (leNat ((b.drop 10).take 2))
        (leNat ((b'.drop 10).take 2)) hread hofs

/-- Witness for C10 at the concrete image `mdExBytes`: overwriting the
declared entry count (5) with 77 decodes to the same metadata value with
only the stored entry_count changed. -/
theorem c10_exactly_five_entries_witness :
    MetaData.deserialize ((mdExBytes.set 10 77).set 11 0) =
      (MetaData.deserialize mdExBytes).map (Except.map fun md =>
        { md with
            entry_count := leNat ((((mdExBytes.set 10 77).set 11 0).drop 10).take 2) }) :=
  (c10_exactly_five_entries mdExBytes ((mdExBytes.set 10 77).set 11 0)
    (by simp)
    (fun i h1 h2 => by
      rw [List.getElem?_set_ne (by omega), List.getElem?_set_ne (by omega)])
    (by decide)).2

/-- The shape every candidate (and the returned active sequence) keeps in
`try_get_log_sequence`: all entries pass validation, the first entry
carries the anchor sequence number, and every later entry carries the
anchor plus one (not its predecessor plus one). -/
def candShape (g : Nat) (c : LogSequence) : Prop :=
  (∀ e ∈ c.entries, LogEntry.validate g e = true) ∧
  (∀ e ∈ c.entries.take 1, e.header.seq_number = c.sequence_number) ∧
  (∀ e ∈ c.entries.tail, e.header.seq_number = c.sequence_number + 1)

/-- A sequence with no entries trivially has the shape. -/
theorem candShape_of_empty (g : Nat) (c : LogSequence) (h : c.entries = []) :
    candShape g c := by
  refine ⟨?_, ?_, ?_⟩ <;> intro e he <;> rw [h] at he <;> simp at he

/-- The inner loop preserves the candidate shape. -/
theorem innerLoop_shape (g : Nat) :
    ∀ (l : List LogEntry) (i : Nat) (st : LoopSt),
      candShape g st.candidate → candShape g (innerLoop g l i st).candidate := by
  intro l
  induction l with
  | nil => intro i st h; exact h
  | cons e rest ih =>
    intro i st h
    by_cases hv : LogEntry.validate g e = false
    · simp only [innerLoop, if_pos hv]
      exact h
    · simp only [innerLoop, if_neg hv]
      have hvt : LogEntry.validate g e = true := by
        cases hb : LogEntry.validate g e with
        | false => exact absurd hb hv
        | true => rfl
      apply ih
      by_cases hemp : st.candidate.is_empty = true
      · rw [if_pos hemp]
        refine ⟨?_, ?_, ?_⟩
        · intro x hx
          simp at hx
          rw [hx]
          exact hvt
        · intro x hx
          simp at hx
          rw [hx]
        · intro x hx
          simp at hx
      · rw [if_neg hemp]
        by_cases hseq : e.header.seq_number = st.candidate.sequence_number + 1
        · rw [if_pos hseq]
          obtain ⟨e0, t, hct⟩ : ∃ e0 t, st.candidate.entries = e0 :: t := by
            cases hc : st.candidate.entries with
            | nil =>
              exact absurd (by simp [LogSequence.is_empty, hc]) hemp
            | cons a b => exact ⟨a, b, rfl⟩
          refine ⟨?_, ?_, ?_⟩
          · intro x hx
            simp only at hx
            rcases List.mem_append.mp hx with hx | hx
            · exact h.1 x hx
            · simp at hx
              rw [hx]
              exact hvt
          · intro x hx
            simp only [hct, List.cons_append, List.take_succ_cons] at hx ⊢
            simp at hx
            rw [hx]
            have := h.2.1 e0 (by rw [hct]; simp)
            exact this
          · intro x hx
            simp only [hct, List.cons_append, List.tail_cons] at hx
            rcases List.mem_append.mp hx with hx | hx
            · have := h.2.2 x (by rw [hct]; exact hx)
              exact this
            · simp at hx
              rw [hx]
              exact hseq
        · rw [if_neg hseq]
          exact h

/-- The outer loop preserves the shape of the active sequence. -/
theorem outerLoop_shape (g : Nat) (es : List LogEntry) :
    ∀ (fuel : Nat) (active : LogSequence) (ri ch stt : Nat),
      candShape g active → candShape g (outerLoop g es fuel active ri ch stt) := by
  intro fuel
  induction fuel with
  | zero => intro active ri ch stt h; exact h
  | succ fuel ih =>
    intro active ri ch stt h
    simp only [outerLoop]
    have hcand := innerLoop_shape g (es.drop ri) 0
      { candidate := { sequence_number := 0, entries := [], head_value := 0, tail_value := stt },
        read_items := ri, cur_head := ch, seq_tail := stt }
      (candShape_of_empty g _ rfl)
    set st := innerLoop g (es.drop ri) 0
      { candidate := { sequence_number := 0, entries := [], head_value := 0, tail_value := stt },
        read_items := ri, cur_head := ch, seq_tail := stt } with hst
    by_cases hvld : st.candidate.is_valid = false
    · rw [if_pos hvld]
      exact h
    · rw [if_neg hvld]
      have hact' : candShape g
          (if st.candidate.sequence_number > active.sequence_number then st.candidate
           else active) := by
        by_cases hgt : st.candidate.sequence_number > active.sequence_number
        · rw [if_pos hgt]
          exact hcand
        · rw [if_neg hgt]
          exact h
      by_cases hall : st.read_items = es.length
      · rw [if_pos hall]
        exact hact'
      · rw [if_neg hall]
        exact ih _ _ _ _ hact'

/-- C3 amended: in the returned active sequence every entry passes the
section-4.12 validity check (in particular carries the current log
GUID), the first entry carries the anchor sequence number, and every
subsequent entry carries the anchor plus one — the code compares each
entry against `candidate.sequence_number + 1` (the anchor is never
advanced) and skips, rather than ends the run at, entries that do not
match. -/
theorem c3_log_sequence_shape (g : Nat) (es : List LogEntry) :
    (∀ e ∈ (try_get_log_sequence g es).entries, LogEntry.validate g e = true) ∧
    (∀ e ∈ (try_get_log_sequence g es).entries, e.header.log_guid = g) ∧
    (∀ e ∈ (try_get_log_sequence g es).entries.take 1,
        e.header.seq_number = (try_get_log_sequence g es).sequence_number) ∧
    (∀ e ∈ (try_get_log_sequence g es).entries.tail,
        e.header.seq_number = (try_get_log_sequence g es).sequence_number + 1) := by
  have hs : candShape g (try_get_log_sequence g es) :=
    outerLoop_shape g es (es.length + 1) ⟨0, [], 0, 0⟩ 0 0 0
      (candShape_of_empty g _ rfl)
  refine ⟨hs.1, ?_, hs.2.1, hs.2.2⟩
  intro e he
  have hv := hs.1 e he
  simp only [LogEntry.validate, Bool.and_eq_true, beq_iff_eq] at hv
  exact hv.1.1.2

/-- C3 counterexample: three entries with sequence numbers 10, 11, 11,
all valid for log GUID 7; the selector returns all three, so the
sequence numbers are not strictly increasing by 1. -/
theorem c3_not_strictly_increasing :
    ((try_get_log_sequence 7 [mkLogEntry 10, mkLogEntry 11, mkLogEntry 11]).entries.map
        (fun e => e.header.seq_number)) = [10, 11, 11] ∧
    (((try_get_log_sequence 7 [mkLogEntry 10, mkLogEntry 11, mkLogEntry 11]).entries.map
        (fun e => e.header.seq_number)).getD 2 0 ≠
      ((try_get_log_sequence 7 [mkLogEntry 10, mkLogEntry 11, mkLogEntry 11]).entries.map
        (fun e => e.header.seq_number)).getD 1 0 + 1) := by
  constructor
  · decide
  · decide


/-- Feeding a concatenation into the CRC state is feeding the pieces in
turn (`Digest::update` composes). -/
theorem crcUpdate_append (s : Nat) (a b : Bytes) :
    crcUpdate s (a ++ b) = crcUpdate (crcUpdate s a) b :=
  List.foldl_append crcByte s a b

/-- C9: the claim says the log-entry CRC functions compute CRC-32C over
the first `entry_length` bytes of the serialized entry with the checksum
field zeroed.  The code does neither: `LogEntry::crc32` feeds no bytes
at all into the digest (it returns the CRC of the empty message, 0, for
every entry), and `LogHeader::crc32` covers only the 64 header bytes and
feeds the stored checksum itself into the digest instead of zeros — two
headers identical except for their stored checksum (same
`entry_length`) get different recomputed CRCs, which the claimed
zero-substituted computation could never produce. -/
theorem c9_log_crc_is_stub :
    (∀ e : LogEntry, LogEntry.crc32 e = 0) ∧
    LogHeader.crc32 (sampleLogHeader 0) ≠ LogHeader.crc32 (sampleLogHeader 1) ∧
    (sampleLogHeader 0).entry_length = (sampleLogHeader 1).entry_length := by
  refine ⟨fun e => rfl, ?_, rfl⟩
  have m0 : crcUpdate 0xFFFFFFFF
      [108, 111, 103, 101, 0, 0, 0, 0, 0, 16, 0, 0, 0, 0, 0, 0,
       9, 0, 0, 0, 0, 0, 0, 0, 0, 0, 0, 0, 0, 0, 0, 0] = 0x555516a7 := by decide
  have m1 : crcUpdate 0xFFFFFFFF
      [108, 111, 103, 101, 1, 0, 0, 0, 0, 16, 0, 0, 0, 0, 0, 0,
       9, 0, 0, 0, 0, 0, 0, 0, 0, 0, 0, 0, 0, 0, 0, 0] = 0xf7409d93 := by decide
  have e0 : LogHeader.crc32 (sampleLogHeader 0) = 0xdf310e9c := by
    dsimp only [LogHeader.crc32, sampleLogHeader]
    rw [show logeSignBytes ++ leBytes 4 0 ++ leBytes 4 4096 ++ leBytes 4 0 ++
        leBytes 8 9 ++ leBytes 4 0 ++ leBytes 4 0 ++ leBytes 16 7 ++
        leBytes 8 (2 ^ 20) ++ leBytes 8 (2 ^ 20) =
        [108, 111, 103, 101, 0, 0, 0, 0, 0, 16, 0, 0, 0, 0, 0, 0,
         9, 0, 0, 0, 0, 0, 0, 0, 0, 0, 0, 0, 0, 0, 0, 0] ++
        [7, 0, 0, 0, 0, 0, 0, 0, 0, 0, 0, 0, 0, 0, 0, 0,
         0, 0, 16, 0, 0, 0, 0, 0, 0, 0, 16, 0, 0, 0, 0, 0] from by decide]
    show crc32c _ = _
    unfold crc32c
    rw [crcUpdate_append, m0]
    decide
  have e1 : LogHeader.crc32 (sampleLogHeader 1) = 0xaa8aaac7 := by
    dsimp only [LogHeader.crc32, sampleLogHeader]
    rw [show logeSignBytes ++ leBytes 4 1 ++ leBytes 4 4096 ++ leBytes 4 0 ++
        leBytes 8 9 ++ leBytes 4 0 ++ leBytes 4 0 ++ leBytes 16 7 ++
        leBytes 8 (2 ^ 20) ++ leBytes 8 (2 ^ 20) =
        [108, 111, 103, 101, 1, 0, 0, 0, 0, 16, 0, 0, 0, 0, 0, 0,
         9, 0, 0, 0, 0, 0, 0, 0, 0, 0, 0, 0, 0, 0, 0, 0] ++
        [7, 0, 0, 0, 0, 0, 0, 0, 0, 0, 0, 0, 0, 0, 0, 0,
         0, 0, 16, 0, 0, 0, 0, 0, 0, 0, 16, 0, 0, 0, 0, 0] from by decide]
    show crc32c _ = _
    unfold crc32c
    rw [crcUpdate_append, m1]
    decide
  rw [e0, e1]
  decide

/-- Characterization of the fueled floor-log2: for `1 <= n < 2 ^ fuel` it
returns the exponent of the leading binary digit. -/
theorem natLog2F_spec (fuel n : Nat) (h1 : 1 <= n) (h2 : n < 2 ^ fuel) :
    2 ^ natLog2F fuel n <= n /\ n < 2 ^ (natLog2F fuel n + 1) := by
  induction fuel generalizing n with
  | zero => simp at h2; omega
  | succ f ih =>
    rw [natLog2F]
    by_cases hn : n < 2
    · rw [if_pos hn]; simp; omega
    · rw [if_neg hn]
      have hd1 : 1 <= n / 2 := by omega
      have hd2 : n / 2 < 2 ^ f := by
        rw [pow_succ] at h2; omega
      have := ih (n / 2) hd1 hd2
      rw [pow_succ, pow_succ]
      omega

/-- Round-to-nearest division never strays more than half a divisor from
the true (scaled) quotient, stated as two one-sided integer bounds. -/
theorem roundNEdiv_bounds (N b : Nat) (hb : 0 < b) :
    2 * (roundNEdiv N b * b) ≤ 2 * N + b ∧ 2 * N ≤ 2 * (roundNEdiv N b * b) + b := by
  have h2 : b * (N / b) + N % b = N := Nat.div_add_mod N b
  have h1 : N % b < b := Nat.mod_lt N hb
  rw [Nat.mul_comm] at h2
  simp only [roundNEdiv]
  split_ifs with c1 c2 c3 <;>
    constructor <;>
    first
      | omega
      | (rw [show (N / b + 1) * b = N / b * b + b from by ring]; omega)

/-- Core window lemma: any integer `m` within half an ulp of the scaled
quotient `a * P / b` has `(m + P - 1) / P` equal to the exact ceiling
`(a + b - 1) / b`, provided the scale `P` satisfies `b < 2 * P` (one bit
more precision than the divisor). -/
theorem round_window_ceil (a b mb N m P : Nat) (hb : 1 ≤ b) (hmb : 1 ≤ mb)
    (hP : 1 ≤ P) (hNb : N * b = a * P * mb) (hbs : b < 2 * P)
    (hlo : 2 * (m * mb) ≤ 2 * N + mb) (hhi : 2 * N ≤ 2 * (m * mb) + mb) :
    (m + P - 1) / P = (a + b - 1) / b := by
  have hk : b * (a / b) + a % b = a := Nat.div_add_mod a b
  set k := a / b with hkdef
  set r := a % b with hrdef
  have hr : r < b := Nat.mod_lt a hb
  have key1 : 2 * (m * b) ≤ 2 * (a * P) + b := by
    have h1 : (2 * (m * b)) * mb ≤ (2 * (a * P) + b) * mb := by
      calc (2 * (m * b)) * mb = 2 * (m * mb) * b := by ring
        _ ≤ (2 * N + mb) * b := Nat.mul_le_mul_right b hlo
        _ = 2 * (N * b) + mb * b := by ring
        _ = 2 * (a * P * mb) + mb * b := by rw [hNb]
        _ = (2 * (a * P) + b) * mb := by ring
    exact Nat.le_of_mul_le_mul_right h1 hmb
  have key2 : 2 * (a * P) ≤ 2 * (m * b) + b := by
    have h1 : (2 * (a * P)) * mb ≤ (2 * (m * b) + b) * mb := by
      calc (2 * (a * P)) * mb = 2 * (a * P * mb) := by ring
        _ = 2 * (N * b) := by rw [hNb]
        _ = 2 * N * b := by ring
        _ ≤ (2 * (m * mb) + mb) * b := Nat.mul_le_mul_right b hhi
        _ = (2 * (m * b) + b) * mb := by ring
    exact Nat.le_of_mul_le_mul_right h1 hmb
  have ha : a = b * k + r := by omega
  have haP : a * P = k * P * b + r * P := by rw [ha]; ring
  rw [haP] at key1 key2
  by_cases hr0 : r = 0
  · -- exact division
    have u1 : (2 * m) * b ≤ (2 * (k * P) + 1) * b := by
      calc (2 * m) * b = 2 * (m * b) := by ring
        _ ≤ 2 * (k * P * b + r * P) + b := key1
        _ = (2 * (k * P) + 1) * b := by rw [hr0]; ring
    have u2 : 2 * m ≤ 2 * (k * P) + 1 := Nat.le_of_mul_le_mul_right u1 (by omega)
    have l1 : (2 * (k * P)) * b ≤ (2 * m + 1) * b := by
      calc (2 * (k * P)) * b = 2 * (k * P * b + r * P) := by rw [hr0]; ring
        _ ≤ 2 * (m * b) + b := key2
        _ = (2 * m + 1) * b := by ring
    have l2 : 2 * (k * P) ≤ 2 * m + 1 := Nat.le_of_mul_le_mul_right l1 (by omega)
    have hm : m = k * P := by omega
    have d1 : (m + P - 1) / P = k := by
      apply Nat.div_eq_of_lt_le
      · omega
      · rw [show (k + 1) * P = k * P + P from by ring]; omega
    have d2 : (a + b - 1) / b = k := by
      apply Nat.div_eq_of_lt_le
      · rw [show k * b = b * k from by ring]; omega
      · rw [show (k + 1) * b = b * k + b from by ring]; omega
    rw [d1, d2]
  · -- r ≥ 1
    have hr1 : 1 ≤ r := by omega
    have hmU : m ≤ k * P + P := by
      by_contra hcon
      have hm' : k * P + P + 1 ≤ m := by omega
      have u1 : (k * P + P + 1) * b ≤ m * b := Nat.mul_le_mul_right b hm'
      rw [show (k * P + P + 1) * b = k * P * b + P * b + b from by ring] at u1
      have c3 : r * P + P ≤ P * b := by
        calc r * P + P = (r + 1) * P := by ring
          _ ≤ b * P := Nat.mul_le_mul_right P (by omega)
          _ = P * b := by ring
      omega
    have hmL : k * P + 1 ≤ m := by
      by_contra hcon
      have hm' : m ≤ k * P := by omega
      have u1 : m * b ≤ k * P * b := Nat.mul_le_mul_right b hm'
      have c4 : P ≤ r * P := by
        calc P = 1 * P := by ring
          _ ≤ r * P := Nat.mul_le_mul_right P hr1
      omega
    have d1 : (m + P - 1) / P = k + 1 := by
      apply Nat.div_eq_of_lt_le
      · rw [show (k + 1) * P = k * P + P from by ring]; omega
      · rw [show (k + 1 + 1) * P = k * P + P + P from by ring]; omega
    have d2 : (a + b - 1) / b = k + 1 := by
      apply Nat.div_eq_of_lt_le
      · rw [show (k + 1) * b = b * k + b from by ring]; omega
      · rw [show (k + 1 + 1) * b = b * k + b + b from by ring]; omega
    rw [d1, d2]

/-- `f64ofNat` on a value below `2 ^ 53` is exact: the significand is the
value shifted to 53 bits. -/
theorem f64ofNat_small (n : Nat) (h1 : 1 ≤ n) (h2 : log2N n ≤ 52) :
    f64ofNat n = ⟨n * 2 ^ (52 - log2N n), (log2N n : Int) - 52⟩ := by
  simp only [f64ofNat]
  rw [if_neg (show ¬ n = 0 from by omega), if_pos h2]

/-- A positive value below `2 ^ 53` has floor-log2 at most 52. -/
theorem log2N_le_52 (n : Nat) (h1 : 1 ≤ n) (h2 : n < 2 ^ 53) : log2N n ≤ 52 := by
  have hs := natLog2F_spec 128 n h1 (lt_trans h2 (by norm_num))
  have h : (2:Nat) ^ natLog2F 128 n < 2 ^ 53 := lt_of_le_of_lt hs.1 h2
  have := (Nat.pow_lt_pow_iff_right (by norm_num : 1 < 2)).mp h
  show natLog2F 128 n ≤ 52
  omega

/-- Both significand branches of `f64div` round to a value whose ceiling
is the exact integer ceiling of `a / b`: `t` is 52 when the divisor
significand is not larger, 53 otherwise. -/
theorem ceil_round_branch (a b ea eb t : Nat)
    (ha1 : 1 ≤ a) (hb1 : 1 ≤ b) (hea : ea ≤ 52) (heb : eb ≤ 52)
    (hb2 : b < 2 ^ (eb + 1)) (ht : 52 ≤ t) :
    (roundNEdiv (a * 2 ^ (52 - ea) * 2 ^ t) (b * 2 ^ (52 - eb)) + 2 ^ (t + eb - ea) - 1) /
      2 ^ (t + eb - ea) = (a + b - 1) / b := by
  have hmb0 : 0 < b * 2 ^ (52 - eb) := Nat.mul_pos (by omega) (pow_pos (by norm_num) _)
  have hbounds := roundNEdiv_bounds (a * 2 ^ (52 - ea) * 2 ^ t) (b * 2 ^ (52 - eb)) hmb0
  have hNb : a * 2 ^ (52 - ea) * 2 ^ t * b = a * 2 ^ (t + eb - ea) * (b * 2 ^ (52 - eb)) := by
    calc a * 2 ^ (52 - ea) * 2 ^ t * b = a * b * 2 ^ ((52 - ea) + t) := by
          rw [pow_add]; ring
      _ = a * b * 2 ^ ((t + eb - ea) + (52 - eb)) := by
          rw [show (52 - ea) + t = (t + eb - ea) + (52 - eb) from by omega]
      _ = a * 2 ^ (t + eb - ea) * (b * 2 ^ (52 - eb)) := by rw [pow_add]; ring
  have hbs : b < 2 * 2 ^ (t + eb - ea) := by
    have h2 : (2:Nat) ^ (eb + 1) ≤ 2 ^ ((t + eb - ea) + 1) :=
      Nat.pow_le_pow_right (by norm_num) (by omega)
    have h3 : (2:Nat) * 2 ^ (t + eb - ea) = 2 ^ ((t + eb - ea) + 1) := by rw [pow_succ]; ring
    omega
  exact round_window_ceil a b (b * 2 ^ (52 - eb)) (a * 2 ^ (52 - ea) * 2 ^ t)
    (roundNEdiv (a * 2 ^ (52 - ea) * 2 ^ t) (b * 2 ^ (52 - eb))) (2 ^ (t + eb - ea))
    hb1 hmb0 (pow_pos (show (0:ℕ) < 2 from by norm_num) (t + eb - ea)) hNb hbs hbounds.1 hbounds.2

/-- The float pipeline `ceil(a as f64 / b as f64)` is exact for positive
inputs below `2 ^ 53`. -/
theorem ceil_f64div_exact (a b : Nat) (ha1 : 1 ≤ a) (ha2 : a < 2 ^ 53)
    (hb1 : 1 ≤ b) (hb2 : b < 2 ^ 53) :
    ceilF64 (f64div (f64ofNat a) (f64ofNat b)) = (a + b - 1) / b := by
  have hea := log2N_le_52 a ha1 ha2
  have heb := log2N_le_52 b hb1 hb2
  have hB : 2 ^ log2N b ≤ b ∧ b < 2 ^ (log2N b + 1) :=
    natLog2F_spec 128 b hb1 (lt_trans hb2 (by norm_num))
  have hma0 : 0 < a * 2 ^ (52 - log2N a) := Nat.mul_pos (by omega) (pow_pos (by norm_num) _)
  have hmb0 : 0 < b * 2 ^ (52 - log2N b) := Nat.mul_pos (by omega) (pow_pos (by norm_num) _)
  rw [f64ofNat_small a ha1 hea, f64ofNat_small b hb1 heb]
  rw [f64div]
  dsimp only
  rw [if_neg (show ¬ b * 2 ^ (52 - log2N b) = 0 from by omega),
    if_neg (show ¬ a * 2 ^ (52 - log2N a) = 0 from by omega)]
  by_cases hcmp : b * 2 ^ (52 - log2N b) ≤ a * 2 ^ (52 - log2N a)
  · rw [if_pos hcmp]
    rw [ceilF64]
    dsimp only
    by_cases h0 : (0:Int) ≤ ((log2N a : Int) - 52) - ((log2N b : Int) - 52) - 52
    · rw [if_pos h0]
      have he1 : log2N a = 52 := by omega
      have he2 : log2N b = 0 := by omega
      have hcore := ceil_round_branch a b (log2N a) (log2N b) 52 ha1 hb1 hea heb hB.2 (by omega)
      rw [he1, he2] at hcore ⊢
      norm_num at hcore ⊢
      exact hcore
    · rw [if_neg h0]
      have hcore := ceil_round_branch a b (log2N a) (log2N b) 52 ha1 hb1 hea heb hB.2 (by omega)
      rw [show (-(((log2N a : Int) - 52) - ((log2N b : Int) - 52) - 52)).toNat
          = 52 + log2N b - log2N a from by omega]
      exact hcore
  · rw [if_neg hcmp]
    rw [ceilF64]
    dsimp only
    rw [if_neg (show ¬ (0:Int) ≤ ((log2N a : Int) - 52) - ((log2N b : Int) - 52) - 53 from by omega)]
    have hcore := ceil_round_branch a b (log2N a) (log2N b) 53 ha1 hb1 hea heb hB.2 (by omega)
    rw [show (-(((log2N a : Int) - 52) - ((log2N b : Int) - 52) - 53)).toNat
        = 53 + log2N b - log2N a from by omega]
    exact hcore

/-- C8 (amended): the claimed identity fails at inputs needing rounding in
the `as f64` conversion (see `c8_payload_blocks_counterexample`), but for
all `1 <= virtual_disk_size < 2 ^ 53` and `1 <= block_size < 2 ^ 53` the
code computes the exact integer ceiling `(a + b - 1) / b`. -/
theorem c8_exact_below_two_pow_53 (a b : Nat)
    (ha1 : 1 ≤ a) (ha2 : a < 2 ^ 53) (hb1 : 1 ≤ b) (hb2 : b < 2 ^ 53) :
    calc_payload_blocks_count a b = (a + b - 1) / b := by
  rw [calc_payload_blocks_count]
  rw [if_neg (show ¬ b = 0 from by omega)]
  rw [ceil_f64div_exact a b ha1 ha2 hb1 hb2]
  have hab : a + b - 1 ≤ a * b := by
    obtain ⟨b', rfl⟩ : ∃ b', b = b' + 1 := ⟨b - 1, by omega⟩
    have h1 : 1 * b' ≤ a * b' := Nat.mul_le_mul_right b' ha1
    have h2 : a * (b' + 1) = a * b' + a := by ring
    omega
  have hle : (a + b - 1) / b ≤ a := by
    calc (a + b - 1) / b ≤ a * b / b := Nat.div_le_div_right hab
      _ = a := Nat.mul_div_cancel a (show 0 < b from by omega)
  have : (a + b - 1) / b ≤ u64Max := by
    have : u64Max = 2 ^ 64 - 1 := rfl
    omega
  omega

theorem c8_exact_below_two_pow_53_witness :
    calc_payload_blocks_count 10 3 = (10 + 3 - 1) / 3 :=
  c8_exact_below_two_pow_53 10 3 (by norm_num) (by norm_num) (by norm_num) (by norm_num)
